import Mathlib

/-!
Verification of the db-connectors configuration store and its maker-checker
approval workflow.  The definitions below are a shallow embedding of the Go
source: the backing database is modelled as explicit state (lists of rows /
documents), SQL and MongoDB operations issued by the API layer are modelled
by their effect on that state, and query text construction is modelled as
plain string building where the claims are about the generated text.
-/

namespace DbConnectors

/-! ## Case-insensitive matching machinery

The relational search queries use `LIKE` (MySQL, case-insensitive under the
default collation) and `ILIKE` (PostgreSQL) with the pattern
`"%" ++ term ++ "%"`; the document backend uses a `$regex` filter with the
case-insensitive option.  `likeMatch` models SQL LIKE pattern matching,
case-insensitively, with the standard wildcards: `%` matches any sequence of
characters and `_` matches exactly one character.  `containsCi` is the plain
case-insensitive substring relation used to state the spec's "substring
match" reading. -/

/-- Case-insensitive character equality (both sides lower-cased). -/
def charEqCi (a b : Char) : Bool := a.toLower == b.toLower

/-- `isPrefixCi t s`: `t` is a case-insensitive prefix of `s`. -/
def isPrefixCi : List Char → List Char → Bool
  | [], _ => true
  | _ :: _, [] => false
  | t :: ts, c :: cs => charEqCi t c && isPrefixCi ts cs

/-- `containsCi t s`: `t` occurs case-insensitively as a contiguous substring
of `s`. -/
def containsCi : List Char → List Char → Bool
  | t, [] => isPrefixCi t []
  | t, c :: cs => isPrefixCi t (c :: cs) || containsCi t cs

/-- Case-insensitive substring relation on strings. -/
def strContainsCi (t s : String) : Bool := containsCi t.toList s.toList

/-- All suffixes of a list, longest first (ending with `[]`). -/
def tailsList : List Char → List (List Char)
  | [] => [[]]
  | c :: cs => (c :: cs) :: tailsList cs

/-- SQL LIKE matching, case-insensitive: `%` matches any (possibly empty)
sequence of characters, `_` matches exactly one character, any other pattern
character matches itself up to case.  A `%` is interpreted by matching the
rest of the pattern against an arbitrary suffix of the subject. -/
def likeMatch : List Char → List Char → Bool
  | [], cs => cs.isEmpty
  | p :: ps, cs =>
    if p = '%' then
      (tailsList cs).any fun suffix => likeMatch ps suffix
    else
      match cs with
      | [] => false
      | c :: cs' => (if p = '_' then true else charEqCi p c) && likeMatch ps cs'

/-- Case-insensitive SQL LIKE on strings. -/
def strLike (pattern s : String) : Bool := likeMatch pattern.toList s.toList

/-- A search term is wildcard-free when it contains neither of the SQL LIKE
wildcard characters `%` and `_`. -/
def noLikeWildcard (t : String) : Bool := t.toList.all fun c => c != '%' && c != '_'

/-- The metacharacters that make a character special inside a MongoDB
`$regex` pattern (PCRE syntax). -/
def regexMetaChars : List Char :=
  ['.', '*', '+', '?', '(', ')', '[', ']', '\x7b', '\x7d', '^', '$', '|', '\\']

/-- A term containing no regex metacharacter is interpreted literally by
`$regex`. -/
def noRegexMeta (t : String) : Bool := t.toList.all fun c => !regexMetaChars.contains c

/-- Matching of a regex pattern against the front of a subject, case
insensitively, for patterns built from literal characters and the `.`
metacharacter (which matches any single character) — the fragment of
`$regex` semantics the theorems below exercise.  Patterns containing other
metacharacters are kept out of scope by the `noRegexMeta` hypothesis of
every statement that mentions the document-backend search. -/
def regexLitePrefix : List Char → List Char → Bool
  | [], _ => true
  | _ :: _, [] => false
  | p :: ps, c :: cs => (if p = '.' then true else charEqCi p c) && regexLitePrefix ps cs

/-- Unanchored regex matching: the pattern may match starting at any
position of the subject. -/
def regexLiteSearch (p s : List Char) : Bool := (tailsList s).any (regexLitePrefix p)

/-- Case-insensitive `$regex` matching on strings (`$options: "i"`). -/
def mongoRegexMatchCi (pattern s : String) : Bool :=
  regexLiteSearch pattern.toList s.toList

/-! ## Connection configuration (connectors/interface.go) -/

/-- ConnectionConfig from connectors/interface.go. -/
structure ConnectionConfig where
  host : String
  port : Nat
  username : String
  password : String
  database : String
  sslMode : String
  deriving Repr, DecidableEq

/-- GetConnectionString (connectors/interface.go lines 57-77): builds the
backend-specific connection string from the configuration. -/
def GetConnectionString (c : ConnectionConfig) (dbType : String) : Except String String :=
  if dbType = "mysql" then
    .ok (c.username ++ ":" ++ c.password ++ "@tcp(" ++ c.host ++ ":" ++
      toString c.port ++ ")/" ++ c.database)
  else if dbType = "postgresql" then
    let sslMode := if c.sslMode = "" then "disable" else c.sslMode
    .ok ("host=" ++ c.host ++ " port=" ++ toString c.port ++ " user=" ++ c.username ++
      " password=" ++ c.password ++ " dbname=" ++ c.database ++ " sslmode=" ++ sslMode)
  else if dbType = "mongodb" then
    if c.username ≠ "" ∧ c.password ≠ "" then
      .ok ("mongodb://" ++ c.username ++ ":" ++ c.password ++ "@" ++ c.host ++ ":" ++
        toString c.port ++ "/" ++ c.database)
    else
      .ok ("mongodb://" ++ c.host ++ ":" ++ toString c.port ++ "/" ++ c.database)
  else
    .error ("unsupported database type: " ++ dbType)

/-! ## Data model

Config entries and approval requests as stored rows / documents.  Timestamps
are modelled as natural numbers (a logical clock passed in for each `NOW()` /
`time.Now()` occurrence); SQL NULL on string columns is modelled as `""` and
on timestamp columns as `none`. -/

/-- The three supported backends (GetType values "mysql", "postgresql",
"mongodb"). -/
inductive DBType where
  | mysql
  | postgresql
  | mongodb
  deriving Repr, DecidableEq

/-- A row of the config-entries table / a document of the config collection
(schema from getCreateTableSQL, part_001 lines 705-826). -/
structure ConfigEntry where
  config_key : String
  config_value : String
  description : String
  status : String
  maker_id : String
  checker_id : String
  created_at : Nat
  updated_at : Nat
  approved_at : Option Nat
  deriving Repr, DecidableEq

/-- A row of the `<table>_approval_requests` table / a document of the
requests collection.  On the relational backends `config_value` and
`previous_value` are always stored as strings (nil is stringified to `""`,
part_001 lines 1603-1610); on the document backend a nil value is stored as
null, modelled by `none`. -/
structure ApprovalRequest where
  request_id : String
  config_key : String
  config_value : Option String
  description : String
  operation : String
  maker_id : String
  checker_id : String
  status : String
  requested_at : Nat
  processed_at : Option Nat
  approval_comment : String
  previous_value : Option String
  deriving Repr, DecidableEq

/-- The backing store: the entries table/collection and the sibling
`_approval_requests` table/collection.  `uniqueKeyIndex` records whether a
uniqueness constraint on `config_key` is in force for the entries
table/collection: the relational DDL declares `config_key VARCHAR(255) NOT
NULL UNIQUE`, while on the document backend a unique index exists only if a
`createIndex` operation has succeeded. -/
structure Store where
  entries : List ConfigEntry
  requests : List ApprovalRequest
  uniqueKeyIndex : Bool
  deriving Repr, DecidableEq

/-- The keys present in the entries table. -/
def Store.entryKeys (s : Store) : List String := s.entries.map (·.config_key)

/-! ## Pagination

Every relational list query appends `LIMIT` / `OFFSET` clauses with the shape

    if limit > 0 { query += " LIMIT limit"; if offset > 0 { query += " OFFSET offset" } }

so the OFFSET clause is emitted only inside the `limit > 0` branch.  The
document-backend branches instead set the `limit` and `skip` find options
independently:

    if limit > 0 { params["limit"] = limit }
    if offset > 0 { params["skip"] = offset }

`sqlPaginate` and `mongoPaginate` model the two shapes (SQL applies OFFSET
before LIMIT; MongoDB applies skip before limit). -/

/-- Pagination of the relational queries (OFFSET only emitted when a LIMIT
clause is present). -/
def sqlPaginate (limit offset : Int) (l : List α) : List α :=
  if limit > 0 then
    if offset > 0 then (l.drop offset.toNat).take limit.toNat
    else l.take limit.toNat
  else l

/-- Pagination of the document-backend find options (`skip` set whenever
`offset > 0`, independently of `limit`). -/
def mongoPaginate (limit offset : Int) (l : List α) : List α :=
  let afterSkip := if offset > 0 then l.drop offset.toNat else l
  if limit > 0 then afterSkip.take limit.toNat else afterSkip

/-- Insert an element into a list sorted by `le` (ORDER BY semantics are
modelled by insertion sort; the claims below depend only on the sorted
output being a permutation of the input). -/
def insertSorted (le : α → α → Bool) (a : α) : List α → List α
  | [] => [a]
  | b :: bs => if le a b then a :: b :: bs else b :: insertSorted le a bs

/-- Sort a list by `le`. -/
def sortBy (le : α → α → Bool) : List α → List α
  | [] => []
  | a :: as => insertSorted le a (sortBy le as)

/-- Byte-wise string comparison used for `ORDER BY config_key`. -/
def charListLe : List Char → List Char → Bool
  | [], _ => true
  | _ :: _, [] => false
  | a :: as, b :: bs =>
    if a.val < b.val then true
    else if b.val < a.val then false
    else charListLe as bs

/-- `ORDER BY config_key` / sort on `config_key` ascending. -/
def sortByKey (l : List ConfigEntry) : List ConfigEntry :=
  sortBy (fun a b => charListLe a.config_key.toList b.config_key.toList) l

/-- `ORDER BY requested_at ASC` / sort `requested_at: 1`. -/
def sortByRequestedAtAsc (l : List ApprovalRequest) : List ApprovalRequest :=
  sortBy (fun a b => a.requested_at ≤ b.requested_at) l

/-- `ORDER BY requested_at DESC` / sort `requested_at: -1`. -/
def sortByRequestedAtDesc (l : List ApprovalRequest) : List ApprovalRequest :=
  sortBy (fun a b => b.requested_at ≤ a.requested_at) l

/-- `ORDER BY processed_at DESC` / sort `processed_at: -1` (absent
`processed_at` modelled as 0). -/
def sortByProcessedAtDesc (l : List ApprovalRequest) : List ApprovalRequest :=
  sortBy (fun a b => b.processed_at.getD 0 ≤ a.processed_at.getD 0) l

/-! ## Approved-only read operations (part_001 lines 2046-2370) -/

/-- readApprovedConfig (part_001 lines 2046-2086): relational backends run
`SELECT ... WHERE config_key = <key> AND status = 'approved'` and return all
matching rows; the document backend runs `findOne` with the filter
`config_key = key, status = "approved"`, returning at most the first match. -/
def readApprovedConfig (db : DBType) (s : Store) (key : String) : List ConfigEntry :=
  match db with
  | .mysql | .postgresql =>
    s.entries.filter fun e => e.config_key == key && e.status == "approved"
  | .mongodb =>
    (s.entries.filter fun e => e.config_key == key && e.status == "approved").take 1

/-- readAllApprovedConfigs (part_001 lines 2088-2132): select all rows with
`status = 'approved'` ordered by key, paginated. -/
def readAllApprovedConfigs (db : DBType) (s : Store) (limit offset : Int) :
    List ConfigEntry :=
  match db with
  | .mysql | .postgresql =>
    sqlPaginate limit offset (sortByKey (s.entries.filter fun e => e.status == "approved"))
  | .mongodb =>
    mongoPaginate limit offset (sortByKey (s.entries.filter fun e => e.status == "approved"))

/-- The per-entry predicate of searchApprovedConfigs (part_001 lines
2134-2205).  MySQL: `status = 'approved' AND (config_key LIKE <p> OR
config_value LIKE <p> OR description LIKE <p>)` with the pattern
`p = "%" ++ term ++ "%"` (LIKE is case-insensitive under the default
collation); PostgreSQL: the same with `ILIKE`; the document backend combines
`status: "approved"` with an `$or` of case-insensitive `$regex` filters on
the three fields, the raw term standing as the regex pattern. -/
def searchApprovedPred (db : DBType) (term : String) (e : ConfigEntry) : Bool :=
  match db with
  | .mysql | .postgresql =>
    let p := "%" ++ term ++ "%"
    e.status == "approved" &&
      (strLike p e.config_key || strLike p e.config_value || strLike p e.description)
  | .mongodb =>
    e.status == "approved" &&
      (mongoRegexMatchCi term e.config_key || mongoRegexMatchCi term e.config_value ||
        mongoRegexMatchCi term e.description)

/-- searchApprovedConfigs (part_001 lines 2134-2205): matching entries
ordered by key, paginated. -/
def searchApprovedConfigs (db : DBType) (s : Store) (term : String)
    (limit offset : Int) : List ConfigEntry :=
  match db with
  | .mysql | .postgresql =>
    sqlPaginate limit offset (sortByKey (s.entries.filter (searchApprovedPred db term)))
  | .mongodb =>
    mongoPaginate limit offset (sortByKey (s.entries.filter (searchApprovedPred db term)))

/-- The WHERE-clause / argument-list construction of filterApprovedConfigs
(part_001 lines 2210-2224) for the relational backends.  `isMysql`
corresponds to `connector.GetType() == "mysql"`.  The clause starts as
`WHERE status = 'approved'`; for each caller-supplied pair the MySQL branch
appends ` AND <field> = ?` while the PostgreSQL branch appends
` AND <field> = $<paramIndex+1>` and then increments `paramIndex`, which
starts at 1; the pair's value is appended to the argument list either way. -/
def filterApprovedWhere (isMysql : Bool) (filter : List (String × String)) :
    String × List String :=
  let step := fun (acc : String × List String × Nat) (kv : String × String) =>
    let whereClause := acc.1
    let args := acc.2.1
    let paramIndex := acc.2.2
    if isMysql then
      (whereClause ++ " AND " ++ kv.1 ++ " = ?", args ++ [kv.2], paramIndex)
    else
      (whereClause ++ " AND " ++ kv.1 ++ " = $" ++ toString (paramIndex + 1),
        args ++ [kv.2], paramIndex + 1)
  let done := filter.foldl step ("WHERE status = \x27approved\x27", [], 1)
  (done.1, done.2.1)

/-- Column lookup on a config entry by field name (string-valued columns). -/
def entryField (e : ConfigEntry) (f : String) : String :=
  if f == "config_key" then e.config_key
  else if f == "config_value" then e.config_value
  else if f == "description" then e.description
  else if f == "status" then e.status
  else if f == "maker_id" then e.maker_id
  else if f == "checker_id" then e.checker_id
  else ""

/-- The entry predicate denoted by the MySQL branch's generated WHERE clause
with its arguments bound in order: `status = 'approved'` AND-ed with one
exact-match condition per caller-supplied pair (for caller-supplied field
names among the entry columns). -/
def filterApprovedMatch (filter : List (String × String)) (e : ConfigEntry) : Bool :=
  e.status == "approved" && filter.all fun kv => entryField e kv.1 == kv.2

/-- The mysql branch of filterApprovedConfigs executed against the store:
matching rows ordered by key, paginated. -/
def filterApprovedConfigsMySql (s : Store) (filter : List (String × String))
    (limit offset : Int) : List ConfigEntry :=
  sqlPaginate limit offset (sortByKey (s.entries.filter (filterApprovedMatch filter)))

/-- Go-map assignment `m[k] = v`: any earlier binding of the key is
overwritten. -/
def mapAssign (m : List (String × String)) (kv : String × String) :
    List (String × String) :=
  (m.filter fun p => !(p.1 == kv.1)) ++ [kv]

/-- The combined document filter of the mongodb branch of
filterApprovedConfigs (part_001 lines 2243-2247): a map initialized with
`status: "approved"` into which every caller-supplied pair is then assigned
— so a caller-supplied `status` criterion overwrites the approved-only
condition. -/
def mongoCombinedFilter (filter : List (String × String)) : List (String × String) :=
  filter.foldl mapAssign [("status", "approved")]

/-- A document matches a MongoDB equality filter when every field named in
the filter map has the given value. -/
def mongoFilterMatch (filter : List (String × String)) (e : ConfigEntry) : Bool :=
  (mongoCombinedFilter filter).all fun kv => entryField e kv.1 == kv.2

/-- The mongodb branch of filterApprovedConfigs executed against the store:
documents matching the combined filter, ordered by key, paginated. -/
def filterApprovedConfigsMongo (s : Store) (filter : List (String × String))
    (limit offset : Int) : List ConfigEntry :=
  mongoPaginate limit offset (sortByKey (s.entries.filter (mongoFilterMatch filter)))

/-- countApprovedConfigs (part_001 lines 2269-2298): `SELECT COUNT(*) ...
WHERE status = 'approved'` / `count` with filter `status: "approved"`. -/
def countApprovedConfigs (db : DBType) (s : Store) : Nat :=
  match db with
  | .mysql | .postgresql | .mongodb =>
    (s.entries.filter fun e => e.status == "approved").length

/-- configExistsApproved (part_001 lines 2300-2370): counts rows/documents
with the given key and `status = 'approved'` and reports `count > 0`. -/
def configExistsApproved (db : DBType) (s : Store) (key : String) : Bool :=
  match db with
  | .mysql | .postgresql | .mongodb =>
    0 < (s.entries.filter fun e => e.config_key == key && e.status == "approved").length

/-! ## Admin read operations, no status filter (part_001 lines 1219-1390) -/

/-- readAllConfigs (part_001 lines 1219-1264): all rows ordered by key,
paginated — the admin variant, with no status condition. -/
def readAllConfigs (db : DBType) (s : Store) (limit offset : Int) :
    List ConfigEntry :=
  match db with
  | .mysql | .postgresql => sqlPaginate limit offset (sortByKey s.entries)
  | .mongodb => mongoPaginate limit offset (sortByKey s.entries)

/-- The per-entry predicate of the admin searchConfigs (part_001 lines
1266-1335): the same three-field match as the approved-only search, without
the status condition. -/
def searchPred (db : DBType) (term : String) (e : ConfigEntry) : Bool :=
  match db with
  | .mysql | .postgresql =>
    let p := "%" ++ term ++ "%"
    strLike p e.config_key || strLike p e.config_value || strLike p e.description
  | .mongodb =>
    mongoRegexMatchCi term e.config_key || mongoRegexMatchCi term e.config_value ||
      mongoRegexMatchCi term e.description

/-- searchConfigs (part_001 lines 1266-1335): matching entries ordered by
key, paginated. -/
def searchConfigs (db : DBType) (s : Store) (term : String) (limit offset : Int) :
    List ConfigEntry :=
  match db with
  | .mysql | .postgresql =>
    sqlPaginate limit offset (sortByKey (s.entries.filter (searchPred db term)))
  | .mongodb =>
    mongoPaginate limit offset (sortByKey (s.entries.filter (searchPred db term)))

/-- The relational branch of the admin filterConfigs (part_001 lines
1339-1369) executed with its arguments bound in order: `WHERE 1=1` AND-ed
with one exact-match condition per caller pair (this variant numbers its
placeholders from $1, line 1349). -/
def filterConfigsSql (s : Store) (criteria : List (String × String))
    (limit offset : Int) : List ConfigEntry :=
  sqlPaginate limit offset (sortByKey (s.entries.filter fun e =>
    criteria.all fun kv => entryField e kv.1 == kv.2))

/-- The mongodb branch of the admin filterConfigs (part_001 lines
1371-1385): the caller's filter map is passed through unchanged. -/
def filterConfigsMongo (s : Store) (criteria : List (String × String))
    (limit offset : Int) : List ConfigEntry :=
  mongoPaginate limit offset (sortByKey (s.entries.filter fun e =>
    criteria.all fun kv => entryField e kv.1 == kv.2))

/-! ## Direct operations, bypassing approval (part_001 lines 2376-2497)

Each mutating operation returns the possibly-failed driver result together
with the post-state of the store.  A failed statement leaves the store
unchanged (a single SQL statement or document operation is atomic). -/

/-- Whether an insert of `key` into the entries table/collection violates the
uniqueness constraint on `config_key`: always enforced by the relational DDL
(`config_key VARCHAR(255) NOT NULL UNIQUE`), and enforced on the document
backend only when a unique index exists. -/
def insertViolatesUnique (db : DBType) (s : Store) (key : String) : Bool :=
  match db with
  | .mysql | .postgresql => s.entries.any fun e => e.config_key == key
  | .mongodb => s.uniqueKeyIndex && s.entries.any fun e => e.config_key == key

/-- The row/document written by the direct-create and upsert-insert paths:
`status = 'approved'`, `created_at`, `updated_at` and `approved_at` all
stamped with the current time. -/
def mkApprovedEntry (key value description makerID : String) (now : Nat) : ConfigEntry :=
  { config_key := key, config_value := value, description := description,
    status := "approved", maker_id := makerID, checker_id := "",
    created_at := now, updated_at := now, approved_at := some now }

/-- createConfigDirect (part_001 lines 2376-2420): INSERT / `insert` of a new
entry with `status = 'approved'` and `created_at`, `updated_at` and
`approved_at` all stamped with the current time.  Fails with the backend's
uniqueness-violation error when the key already exists (and on the document
backend a unique index is present). -/
def createConfigDirect (db : DBType) (s : Store) (key value description makerID : String)
    (now : Nat) : Except String Unit × Store :=
  if insertViolatesUnique db s key then
    (.error ("duplicate key " ++ key), s)
  else
    (.ok (), { s with entries := s.entries
      ++ [mkApprovedEntry key value description makerID now] })

/-- UpdateOne semantics: apply the `$set` document of updateConfigDirect to
the first document whose `config_key` matches. -/
def updateFirstMatch : List ConfigEntry → String → String → String → String → Nat →
    List ConfigEntry
  | [], _, _, _, _, _ => []
  | e :: rest, key, value, description, makerID, now =>
    if e.config_key == key then
      { e with config_value := value, description := description,
               status := "approved", maker_id := makerID,
               updated_at := now, approved_at := some now } :: rest
    else e :: updateFirstMatch rest key value description makerID now

/-- updateConfigDirect (part_001 lines 2422-2469).  The relational branches
run `UPDATE <table> SET config_value = ?, description = ?, status =
'approved', maker_id = ?, updated_at = NOW(), approved_at = NOW() WHERE
config_key = ?` — a plain update, which modifies existing rows (leaving
`created_at` untouched) and does nothing when no row matches.  The document
branch runs an `upsert` (UpdateOne with SetUpsert(true)): the first document
matching `config_key = key` has the `$set` fields applied, and when no
document matches a new one is inserted from the `$set` fields plus the
`$setOnInsert` field `created_at = now`. -/
def updateConfigDirect (db : DBType) (s : Store) (key value description makerID : String)
    (now : Nat) : Except String Unit × Store :=
  match db with
  | .mysql | .postgresql =>
    (.ok (), { s with entries := s.entries.map fun e =>
      if e.config_key == key then
        { e with config_value := value, description := description,
                 status := "approved", maker_id := makerID,
                 updated_at := now, approved_at := some now }
      else e })
  | .mongodb =>
    if s.entries.any fun e => e.config_key == key then
      (.ok (), { s with entries := updateFirstMatch s.entries key value description makerID now })
    else
      (.ok (), { s with entries := s.entries
        ++ [mkApprovedEntry key value description makerID now] })

/-- DeleteOne semantics: remove the first document whose `config_key`
matches. -/
def deleteFirstMatch : List ConfigEntry → String → List ConfigEntry
  | [], _ => []
  | e :: rest, key =>
    if e.config_key == key then rest else e :: deleteFirstMatch rest key

/-- deleteConfigDirect (part_001 lines 2471-2497): `DELETE ... WHERE
config_key = ?` / `delete` with filter `config_key = key`.  Deleting an
absent key affects zero rows and is not an error.  (The document branch uses
DeleteOne, which removes at most the first matching document; with a unique
key the two coincide, and the relational DELETE removes every match.) -/
def deleteConfigDirect (db : DBType) (s : Store) (key : String) :
    Except String Unit × Store :=
  match db with
  | .mysql | .postgresql =>
    (.ok (), { s with entries := s.entries.filter fun e => !(e.config_key == key) })
  | .mongodb =>
    (.ok (), { s with entries := deleteFirstMatch s.entries key })

/-! ## Maker-checker workflow (part_001 lines 1586-2040) -/

/-- The caller-visible result of submitConfigForApproval. -/
structure SubmitResult where
  request_id : String
  status : String
  operation : String
  config_key : String
  maker_id : String
  deriving Repr, DecidableEq

/-- submitConfigForApproval (part_001 lines 1593-1693): inserts one row /
document with `status = 'pending'` into the `_approval_requests`
table/collection and returns the generated request id.  The entries table is
not touched.  On the relational backends `config_value` and `previous_value`
are stringified (nil becomes `""`) and `request_id` is the table's primary
key, so the insert fails if the id already exists; the document-backend
insert stores the raw values and its collection carries no unique index. -/
def submitConfigForApproval (db : DBType) (s : Store)
    (operation key : String) (value : Option String) (description makerID : String)
    (previousValue : Option String) (requestID : String) (now : Nat) :
    Except String SubmitResult × Store :=
  let result : SubmitResult :=
    { request_id := requestID, status := "submitted_for_approval",
      operation := operation, config_key := key, maker_id := makerID }
  match db with
  | .mysql | .postgresql =>
    if s.requests.any fun r => r.request_id == requestID then
      (.error ("duplicate request_id " ++ requestID), s)
    else
      (.ok result, { s with requests := s.requests ++
        [{ request_id := requestID, config_key := key,
           config_value := some (value.getD ""), description := description,
           operation := operation, maker_id := makerID, checker_id := "",
           status := "pending", requested_at := now, processed_at := none,
           approval_comment := "", previous_value := some (previousValue.getD "") }] })
  | .mongodb =>
    (.ok result, { s with requests := s.requests ++
      [{ request_id := requestID, config_key := key,
         config_value := value, description := description,
         operation := operation, maker_id := makerID, checker_id := "",
         status := "pending", requested_at := now, processed_at := none,
         approval_comment := "", previous_value := previousValue }] })

/-- getPendingRequestByID (part_001 lines 1929-1996): select the request with
the given id and `status = 'pending'`; all three backends return the first
match or nothing. -/
def getPendingRequestByID (db : DBType) (s : Store) (requestID : String) :
    Option ApprovalRequest :=
  match db with
  | .mysql | .postgresql | .mongodb =>
    (s.requests.filter fun r => r.request_id == requestID && r.status == "pending").head?

/-- updateApprovalRequestStatus (part_001 lines 1998-2040): `UPDATE ... SET
status, checker_id, approval_comment, processed_at WHERE request_id = ?` /
`update` with filter `request_id`.  Note that the statement carries no
status condition: it applies to the request with the given id no matter its
current status, and matching zero rows is not an error. -/
def updateApprovalRequestStatus (db : DBType) (s : Store)
    (requestID status checkerID comment : String) (now : Nat) : Store :=
  match db with
  | .mysql | .postgresql | .mongodb =>
    { s with requests := s.requests.map fun r =>
      if r.request_id == requestID then
        { r with status := status, checker_id := checkerID,
                 approval_comment := comment, processed_at := some now }
      else r }

/-- The dispatch on `request.operation` inside approveRequest (part_001 lines
1709-1728): re-apply the requested change through the direct-write path,
using the request's stored key, value, description and original maker id.
On the relational backends the stored `config_value` is a string (never
null); `getD ""` reads it back. -/
def applyApprovedOperation (db : DBType) (s : Store) (request : ApprovalRequest)
    (now : Nat) : Except String Unit × Store :=
  if request.operation == "create" then
    createConfigDirect db s request.config_key (request.config_value.getD "")
      request.description request.maker_id now
  else if request.operation == "update" then
    updateConfigDirect db s request.config_key (request.config_value.getD "")
      request.description request.maker_id now
  else if request.operation == "delete" then
    deleteConfigDirect db s request.config_key
  else
    (.error ("unsupported operation: " ++ request.operation), s)

/-- The caller-visible result of approveRequest / rejectRequest. -/
structure DecisionResult where
  request_id : String
  status : String
  checker_id : String
  approval_comment : String
  deriving Repr, DecidableEq

/-- approveRequest (part_001 lines 1695-1747): (1) load the request,
failing when it is absent or not pending; (2) apply the change through the
direct-write path; a failure here aborts the approval before the request
status is touched; (3) only on success, mark the request approved with
checker id, comment and processing time. -/
def approveRequest (db : DBType) (s : Store) (requestID checkerID comment : String)
    (now : Nat) : Except String DecisionResult × Store :=
  match getPendingRequestByID db s requestID with
  | none => (.error "request not found or not in pending status", s)
  | some request =>
    match applyApprovedOperation db s request now with
    | (.error e, s1) => (.error ("failed to apply approved change: " ++ e), s1)
    | (.ok _, s1) =>
      let s2 := updateApprovalRequestStatus db s1 requestID "approved" checkerID comment now
      (.ok { request_id := requestID, status := "approved", checker_id := checkerID,
             approval_comment := comment }, s2)

/-- rejectRequest (part_001 lines 1749-1763): updates the request status to
rejected via updateApprovalRequestStatus, with no check that the request
exists or is pending, and never touches the entries table. -/
def rejectRequest (db : DBType) (s : Store) (requestID checkerID comment : String)
    (now : Nat) : Except String DecisionResult × Store :=
  let s1 := updateApprovalRequestStatus db s requestID "rejected" checkerID comment now
  (.ok { request_id := requestID, status := "rejected", checker_id := checkerID,
         approval_comment := comment }, s1)

/-- getPendingApprovals (part_001 lines 1765-1808): pending requests ordered
oldest-first, paginated (relational: OFFSET only under LIMIT; document:
skip set independently). -/
def getPendingApprovals (db : DBType) (s : Store) (limit offset : Int) :
    List ApprovalRequest :=
  match db with
  | .mysql | .postgresql =>
    sqlPaginate limit offset
      (sortByRequestedAtAsc (s.requests.filter fun r => r.status == "pending"))
  | .mongodb =>
    mongoPaginate limit offset
      (sortByRequestedAtAsc (s.requests.filter fun r => r.status == "pending"))

/-- getMyRequests (part_001 lines 1810-1876): the maker's requests ordered
newest-first, paginated. -/
def getMyRequests (db : DBType) (s : Store) (makerID : String) (limit offset : Int) :
    List ApprovalRequest :=
  match db with
  | .mysql | .postgresql =>
    sqlPaginate limit offset
      (sortByRequestedAtDesc (s.requests.filter fun r => r.maker_id == makerID))
  | .mongodb =>
    mongoPaginate limit offset
      (sortByRequestedAtDesc (s.requests.filter fun r => r.maker_id == makerID))

/-- getApprovalHistory (part_001 lines 1878-1925): resolved requests
(`status IN ('approved', 'rejected')`) ordered by processing time
newest-first, paginated. -/
def getApprovalHistory (db : DBType) (s : Store) (limit offset : Int) :
    List ApprovalRequest :=
  match db with
  | .mysql | .postgresql =>
    sqlPaginate limit offset (sortByProcessedAtDesc
      (s.requests.filter fun r => r.status == "approved" || r.status == "rejected"))
  | .mongodb =>
    mongoPaginate limit offset (sortByProcessedAtDesc
      (s.requests.filter fun r => r.status == "approved" || r.status == "rejected"))

/-! ## Batch direct operations (part_001 lines 2499-2566) -/

/-- Per-item outcome recorded in the batch result map. -/
inductive ItemResult where
  | success
  | failure (msg : String)
  deriving Repr, DecidableEq

/-- The batch summary returned by the `*MultipleConfigsDirect` functions. -/
structure BatchSummary where
  total_items : Nat
  success_count : Nat
  failure_count : Nat
  results : List (String × ItemResult)
  deriving Repr, DecidableEq

/-- A single configuration item of a batch request. -/
structure ConfigItem where
  key : String
  value : String
  description : String
  maker_id : String
  deriving Repr, DecidableEq

/-- The loop body of createMultipleConfigsDirect: each item is created
independently; an item's error is recorded under its key and the loop
continues with the remaining items.  Returns the per-key results in input
order, the success count and the final store.  (The Go function accumulates
the per-key results in a map keyed by `config.Key`; for batches with
distinct keys this is the same association.) -/
def createMultipleLoop (db : DBType) (s : Store) (now : Nat) :
    List ConfigItem → List (String × ItemResult) × Nat × Store
  | [] => ([], 0, s)
  | c :: rest =>
    match createConfigDirect db s c.key c.value c.description c.maker_id now with
    | (.error e, s1) =>
      let done := createMultipleLoop db s1 now rest
      ((c.key, .failure e) :: done.1, done.2.1, done.2.2)
    | (.ok _, s1) =>
      let done := createMultipleLoop db s1 now rest
      ((c.key, .success) :: done.1, done.2.1 + 1, done.2.2)

/-- createMultipleConfigsDirect (part_001 lines 2499-2520): runs the loop and
returns the summary `total_items = len(configs)`, `success_count`,
`failure_count = len(configs) - success_count` and the per-key result map.
The function itself never fails. -/
def createMultipleConfigsDirect (db : DBType) (s : Store) (configs : List ConfigItem)
    (now : Nat) : BatchSummary × Store :=
  let done := createMultipleLoop db s now configs
  ({ total_items := configs.length, success_count := done.2.1,
     failure_count := configs.length - done.2.1, results := done.1 }, done.2.2)

/-- The loop body of deleteMultipleConfigsDirect (part_001 lines 2545-2566),
same shape as the create loop but calling deleteConfigDirect per item. -/
def deleteMultipleLoop (db : DBType) (s : Store) :
    List ConfigItem → List (String × ItemResult) × Nat × Store
  | [] => ([], 0, s)
  | c :: rest =>
    match deleteConfigDirect db s c.key with
    | (.error e, s1) =>
      let done := deleteMultipleLoop db s1 rest
      ((c.key, .failure e) :: done.1, done.2.1, done.2.2)
    | (.ok _, s1) =>
      let done := deleteMultipleLoop db s1 rest
      ((c.key, .success) :: done.1, done.2.1 + 1, done.2.2)

/-- deleteMultipleConfigsDirect (part_001 lines 2545-2566). -/
def deleteMultipleConfigsDirect (db : DBType) (s : Store) (configs : List ConfigItem) :
    BatchSummary × Store :=
  let done := deleteMultipleLoop db s configs
  ({ total_items := configs.length, success_count := done.2.1,
     failure_count := configs.length - done.2.1, results := done.1 }, done.2.2)

/-- The loop body of updateMultipleConfigsDirect (part_001 lines 2522-2543),
same shape as the create loop but calling updateConfigDirect per item. -/
def updateMultipleLoop (db : DBType) (s : Store) (now : Nat) :
    List ConfigItem → List (String × ItemResult) × Nat × Store
  | [] => ([], 0, s)
  | c :: rest =>
    match updateConfigDirect db s c.key c.value c.description c.maker_id now with
    | (.error e, s1) =>
      let done := updateMultipleLoop db s1 now rest
      ((c.key, .failure e) :: done.1, done.2.1, done.2.2)
    | (.ok _, s1) =>
      let done := updateMultipleLoop db s1 now rest
      ((c.key, .success) :: done.1, done.2.1 + 1, done.2.2)

/-- updateMultipleConfigsDirect (part_001 lines 2522-2543). -/
def updateMultipleConfigsDirect (db : DBType) (s : Store) (configs : List ConfigItem)
    (now : Nat) : BatchSummary × Store :=
  let done := updateMultipleLoop db s now configs
  ({ total_items := configs.length, success_count := done.2.1,
     failure_count := configs.length - done.2.1, results := done.1 }, done.2.2)

/-! ## Document-backend table creation (part_001 lines 975-1014 and
mongodb.go lines 107-335) -/

/-- The operations handled by the switch of executeCollectionOperation
(mongodb.go lines 165-335); any other operation name falls through to the
default case, which errors. -/
def mongoOpSupported (op : String) : Bool :=
  op == "find" || op == "findOne" || op == "insert" || op == "insertMany" ||
  op == "update" || op == "updateMany" || op == "upsert" || op == "delete" ||
  op == "deleteMany" || op == "count"

/-- The `createIndex` call issued by createAllConfigTable (part_001 lines
1000-1004) as dispatched by executeCollectionOperation: if the operation
were handled, a successful unique index on `config_key` would set
`uniqueKeyIndex`; as it is not in the switch, the call returns the default
branch's unsupported-operation error and the store is untouched. -/
def mongoCreateIndexOnKey (s : Store) (unique : Bool) : Except String Unit × Store :=
  if mongoOpSupported "createIndex" then
    (.ok (), { s with uniqueKeyIndex := s.uniqueKeyIndex || unique })
  else
    (.error "unsupported operation: createIndex", s)

/-- The sentinel document inserted by the mongodb branch of
createAllConfigTable (part_001 lines 985-994); it has no `status` field
(modelled as `""`). -/
def mongoInitDoc (now : Nat) : ConfigEntry :=
  { config_key := "_init", config_value := "collection_created",
    description := "Initial document to create collection", status := "",
    maker_id := "", checker_id := "", created_at := now, updated_at := now,
    approved_at := none }

/-- The result map of the mongodb branch of createAllConfigTable. -/
structure MongoCreateTableResult where
  collection_created : Bool
  index_created : Bool
  deriving Repr, DecidableEq

/-- The mongodb branch of createAllConfigTable (part_001 lines 983-1009):
insert the sentinel document (creating the collection), then attempt to
create a unique index on `config_key`; the returned map reports
`index_created = (err == nil)` for the index attempt, and an index failure
does not fail the call. -/
def createAllConfigTableMongo (s : Store) (now : Nat) :
    Except String MongoCreateTableResult × Store :=
  if insertViolatesUnique .mongodb s "_init" then
    (.error "duplicate key _init", s)
  else
    let s1 : Store := { s with entries := s.entries ++ [mongoInitDoc now] }
    match mongoCreateIndexOnKey s1 true with
    | (.ok _, s2) => (.ok { collection_created := true, index_created := true }, s2)
    | (.error _, s2) => (.ok { collection_created := true, index_created := false }, s2)

/-! ## Helper lemmas -/

theorem mem_insertSorted {le : α → α → Bool} {a b : α} {l : List α} :
    b ∈ insertSorted le a l ↔ b = a ∨ b ∈ l := by
  induction l with
  | nil => simp [insertSorted]
  | cons c cs ih =>
    simp only [insertSorted]
    split
    · simp
    · simp only [List.mem_cons, ih]
      tauto

theorem mem_sortBy {le : α → α → Bool} {b : α} {l : List α} :
    b ∈ sortBy le l ↔ b ∈ l := by
  induction l with
  | nil => simp [sortBy]
  | cons c cs ih => simp [sortBy, mem_insertSorted, ih]

theorem length_insertSorted (le : α → α → Bool) (a : α) (l : List α) :
    (insertSorted le a l).length = l.length + 1 := by
  induction l with
  | nil => simp [insertSorted]
  | cons c cs ih =>
    by_cases h : le a c = true <;> simp [insertSorted, h, ih]

theorem length_sortBy (le : α → α → Bool) (l : List α) :
    (sortBy le l).length = l.length := by
  induction l with
  | nil => simp [sortBy]
  | cons c cs ih => simp [sortBy, length_insertSorted, ih]

theorem mem_of_mem_sqlPaginate {limit offset : Int} {l : List α} {a : α}
    (h : a ∈ sqlPaginate limit offset l) : a ∈ l := by
  unfold sqlPaginate at h
  split at h
  · split at h
    · exact List.drop_subset _ _ (List.take_subset _ _ h)
    · exact List.take_subset _ _ h
  · exact h

theorem mem_of_mem_mongoPaginate {limit offset : Int} {l : List α} {a : α}
    (h : a ∈ mongoPaginate limit offset l) : a ∈ l := by
  unfold mongoPaginate at h
  dsimp only at h
  split at h
  · split at h
    · exact List.drop_subset _ _ (List.take_subset _ _ h)
    · exact List.take_subset _ _ h
  · split at h
    · exact List.drop_subset _ _ h
    · exact h

/-! ## Claim C8 — connection-string construction -/

/-- C8: GetConnectionString is a pure, deterministic function of the
connection descriptor; on `host = localhost, port = 3306, username = root,
password = password, database = testdb` the MySQL string is exactly
`root:password@tcp(localhost:3306)/testdb`; the same fields with
`sslMode = disable` give exactly
`host=localhost port=3306 user=root password=password dbname=testdb
sslmode=disable` for PostgreSQL; and `host = localhost, port = 27017,
database = testdb` with no credentials gives exactly
`mongodb://localhost:27017/testdb` for MongoDB. -/
theorem c8_connection_strings :
    GetConnectionString
        { host := "localhost", port := 3306, username := "root",
          password := "password", database := "testdb", sslMode := "" } "mysql"
      = .ok "root:password@tcp(localhost:3306)/testdb" ∧
    GetConnectionString
        { host := "localhost", port := 3306, username := "root",
          password := "password", database := "testdb", sslMode := "disable" } "postgresql"
      = .ok "host=localhost port=3306 user=root password=password dbname=testdb sslmode=disable" ∧
    GetConnectionString
        { host := "localhost", port := 27017, username := "",
          password := "", database := "testdb", sslMode := "" } "mongodb"
      = .ok "mongodb://localhost:27017/testdb" := by
  refine ⟨?_, ?_, ?_⟩ <;> rfl

/-! ## Claim C5 — filter placeholders on the numbered-placeholder backend -/

/-- C5: the claim states that on the numbered-placeholder (PostgreSQL)
backend the generated filter statement's placeholders are numbered
consecutively from `$1` in the order of the supplied argument values.  The
code (part_001 lines 2214-2221) initializes `paramIndex` to 1 but emits
`$paramIndex+1`, so the placeholders run from `$2`: with a single criterion
the generated clause references `$2` while only one argument value is
supplied, so the statement cannot bind its argument to `$1` as claimed.
The intended numbering is visible in the admin variant filterConfigs
(part_001 line 1349), which emits `$paramIndex` starting at `$1`, and in
the `?`-placeholder branch, which is consistent with argument order. -/
theorem c5_postgres_placeholder_off_by_one :
    filterApprovedWhere false [("maker_id", "alice")]
      = ("WHERE status = \x27approved\x27 AND maker_id = $2", ["alice"]) ∧
    filterApprovedWhere false [("maker_id", "alice"), ("checker_id", "bob")]
      = ("WHERE status = \x27approved\x27 AND maker_id = $2 AND checker_id = $3",
         ["alice", "bob"]) ∧
    filterApprovedWhere true [("maker_id", "alice"), ("checker_id", "bob")]
      = ("WHERE status = \x27approved\x27 AND maker_id = ? AND checker_id = ?",
         ["alice", "bob"]) := by
  refine ⟨?_, ?_, ?_⟩ <;> decide

/-! ## Claim C6 — document-backend table creation -/

/-- C6: the claim states that the document-backend create_table operation
creates the collection via a sentinel insert and also creates a unique index
on the key field.  The sentinel insert and the result field are as claimed,
but the `createIndex` operation issued by createAllConfigTable is not among
the operations handled by the connector's executeCollectionOperation
(mongodb.go lines 165-335), so the index-creation call always fails with
`unsupported operation: createIndex`: no unique index is ever created and
the result always reports `index_created = false`. -/
theorem c6_mongo_index_never_created :
    mongoOpSupported "createIndex" = false ∧
    (∀ s now,
      (createAllConfigTableMongo s now).1 = .error "duplicate key _init" ∨
      (createAllConfigTableMongo s now).1
        = .ok { collection_created := true, index_created := false }) ∧
    (∀ s now, ((createAllConfigTableMongo s now).2).uniqueKeyIndex = s.uniqueKeyIndex) ∧
    (createAllConfigTableMongo { entries := [], requests := [], uniqueKeyIndex := false } 3)
      = (.ok { collection_created := true, index_created := false },
         { entries := [mongoInitDoc 3], requests := [], uniqueKeyIndex := false }) := by
  refine ⟨rfl, ?_, ?_, by rfl⟩
  · intro s now
    unfold createAllConfigTableMongo
    split
    · exact Or.inl rfl
    · exact Or.inr rfl
  · intro s now
    unfold createAllConfigTableMongo
    split
    · rfl
    · rfl

/-! ## Claim C1 — pending changes are invisible to default reads -/

/-- Membership in a filtered entry list whose predicate entails approval. -/
theorem approved_of_mem_filter {l : List ConfigEntry} {p : ConfigEntry → Bool}
    {e : ConfigEntry} (h : e ∈ l.filter p)
    (hp : ∀ x, p x = true → x.status = "approved") : e.status = "approved" :=
  hp e (List.mem_filter.mp h).2

/-- Field lookup of the `status` column. -/
theorem entryField_status (e : ConfigEntry) : entryField e "status" = e.status := rfl

/-- The `status → approved` binding survives the Go-map merge of the
document-backend filter as long as no caller-supplied pair names the
`status` field. -/
theorem status_mem_mongoCombinedFilter {filter : List (String × String)}
    (h : ∀ kv ∈ filter, kv.1 ≠ "status") :
    ("status", "approved") ∈ mongoCombinedFilter filter := by
  have general : ∀ (l : List (String × String)) (acc : List (String × String)),
      ("status", "approved") ∈ acc → (∀ kv ∈ l, kv.1 ≠ "status") →
      ("status", "approved") ∈ l.foldl mapAssign acc := by
    intro l
    induction l with
    | nil => intro acc hacc _; simpa using hacc
    | cons kv rest ih =>
      intro acc hacc hl
      have hne : kv.1 ≠ "status" := hl kv (List.mem_cons_self kv rest)
      refine ih (mapAssign acc kv) ?_ fun p hp => hl p (List.mem_cons_of_mem kv hp)
      unfold mapAssign
      refine List.mem_append_left _ (List.mem_filter.mpr ⟨hacc, ?_⟩)
      simp [Ne.symm hne]
  exact general filter [("status", "approved")] (List.mem_singleton.mpr rfl) h

/-- An example pending entry. -/
def pendingEntryEx : ConfigEntry :=
  { config_key := "k1", config_value := "v1", description := "d1",
    status := "pending", maker_id := "m", checker_id := "",
    created_at := 1, updated_at := 1, approved_at := none }

/-- A store holding only the pending example entry. -/
def pendingOnlyStore : Store :=
  { entries := [pendingEntryEx], requests := [], uniqueKeyIndex := false }

/-- C1 counterexample: the claim asserts that every default filter operation
returns only entries with `status = 'approved'`.  On the document backend
the combined filter merges caller criteria over the `status: "approved"`
binding (part_001 lines 2243-2247), so the criteria map
`status = "pending"` overrides the approved-only condition and the default
filter operation returns a pending entry. -/
theorem c1_counterexample :
    filterApprovedConfigsMongo pendingOnlyStore [("status", "pending")] 0 0
      = [pendingEntryEx] ∧ pendingEntryEx.status ≠ "approved" := by
  exact ⟨rfl, by decide⟩

/-- C1 (amended): submit_create on a fresh request id only appends a pending
row to the requests table and leaves the entries table untouched, so an
immediately following default read of a never-created key returns no
result; and every default read/read_all/search/count/exists operation —
and the default filter operation except, on the document backend, for
criteria that name the `status` field, which override the approved-only
condition — returns only entries with `status = 'approved'`. -/
theorem c1_approved_only_visibility
    (db : DBType) (s : Store) (operation key : String) (value : Option String)
    (description makerID : String) (previousValue : Option String)
    (requestID : String) (now : Nat)
    (hfresh : ∀ r ∈ s.requests, r.request_id ≠ requestID) :
    (∃ req : ApprovalRequest,
      (submitConfigForApproval db s operation key value description makerID
          previousValue requestID now).1
        = .ok { request_id := requestID, status := "submitted_for_approval",
                operation := operation, config_key := key, maker_id := makerID } ∧
      (submitConfigForApproval db s operation key value description makerID
          previousValue requestID now).2
        = { s with requests := s.requests ++ [req] } ∧
      req.status = "pending" ∧ req.request_id = requestID ∧
      req.config_key = key ∧ req.operation = operation ∧ req.maker_id = makerID) ∧
    ((∀ e ∈ s.entries, e.config_key ≠ key) →
      readApprovedConfig db (submitConfigForApproval db s operation key value
          description makerID previousValue requestID now).2 key = []) ∧
    (∀ k e, e ∈ readApprovedConfig db s k → e.status = "approved") ∧
    (∀ lim off e, e ∈ readAllApprovedConfigs db s lim off → e.status = "approved") ∧
    (∀ term lim off e, e ∈ searchApprovedConfigs db s term lim off →
      e.status = "approved") ∧
    (∀ criteria lim off e, e ∈ filterApprovedConfigsMySql s criteria lim off →
      e.status = "approved") ∧
    (∀ criteria lim off e, (∀ kv ∈ criteria, kv.1 ≠ "status") →
      e ∈ filterApprovedConfigsMongo s criteria lim off → e.status = "approved") ∧
    (countApprovedConfigs db s
      = (s.entries.filter fun e => e.status == "approved").length) ∧
    (configExistsApproved db s key = true ↔
      ∃ e ∈ s.entries, e.config_key = key ∧ e.status = "approved") := by
  have hany : (s.requests.any fun r => r.request_id == requestID) = false := by
    rw [List.any_eq_false]
    intro r hr
    simpa using hfresh r hr
  have hentries : (submitConfigForApproval db s operation key value description
      makerID previousValue requestID now).2.entries = s.entries := by
    cases db <;> simp [submitConfigForApproval, hany]
  refine ⟨?_, ?_, ?_, ?_, ?_, ?_, ?_, ?_, ?_⟩
  · cases db with
    | mysql =>
      refine ⟨{ request_id := requestID, config_key := key,
                config_value := some (value.getD ""), description := description,
                operation := operation, maker_id := makerID, checker_id := "",
                status := "pending", requested_at := now, processed_at := none,
                approval_comment := "",
                previous_value := some (previousValue.getD "") },
              ?_, ?_, rfl, rfl, rfl, rfl, rfl⟩ <;>
        simp [submitConfigForApproval, hany]
    | postgresql =>
      refine ⟨{ request_id := requestID, config_key := key,
                config_value := some (value.getD ""), description := description,
                operation := operation, maker_id := makerID, checker_id := "",
                status := "pending", requested_at := now, processed_at := none,
                approval_comment := "",
                previous_value := some (previousValue.getD "") },
              ?_, ?_, rfl, rfl, rfl, rfl, rfl⟩ <;>
        simp [submitConfigForApproval, hany]
    | mongodb =>
      refine ⟨{ request_id := requestID, config_key := key,
                config_value := value, description := description,
                operation := operation, maker_id := makerID, checker_id := "",
                status := "pending", requested_at := now, processed_at := none,
                approval_comment := "", previous_value := previousValue },
              ?_, ?_, rfl, rfl, rfl, rfl, rfl⟩ <;>
        simp [submitConfigForApproval]
  · intro hnokey
    have hfilter : ∀ (l : List ConfigEntry), (∀ e ∈ l, e.config_key ≠ key) →
        (l.filter fun e => e.config_key == key && e.status == "approved") = [] := by
      intro l hl
      rw [List.filter_eq_nil_iff]
      intro e he
      simp [hl e he]
    cases db with
    | mysql => rw [readApprovedConfig, hentries]; exact hfilter _ hnokey
    | postgresql => rw [readApprovedConfig, hentries]; exact hfilter _ hnokey
    | mongodb => rw [readApprovedConfig, hentries, hfilter _ hnokey]; rfl
  · intro k e he
    cases db with
    | mysql | postgresql =>
      exact approved_of_mem_filter he fun x hx => by
        simpa using (Bool.and_eq_true .. |>.mp hx).2
    | mongodb =>
      exact approved_of_mem_filter (List.take_subset 1 _ he) fun x hx => by
        simpa using (Bool.and_eq_true .. |>.mp hx).2
  · intro lim off e he
    have hmem : e ∈ s.entries.filter fun x => x.status == "approved" := by
      cases db with
      | mysql | postgresql =>
        exact mem_sortBy.mp (mem_of_mem_sqlPaginate he)
      | mongodb =>
        exact mem_sortBy.mp (mem_of_mem_mongoPaginate he)
    exact approved_of_mem_filter hmem fun x hx => by simpa using hx
  · intro term lim off e he
    have hmem : e ∈ s.entries.filter (searchApprovedPred db term) := by
      cases db with
      | mysql | postgresql =>
        exact mem_sortBy.mp (mem_of_mem_sqlPaginate he)
      | mongodb =>
        exact mem_sortBy.mp (mem_of_mem_mongoPaginate he)
    refine approved_of_mem_filter hmem fun x hx => ?_
    cases db <;>
      simpa using (Bool.and_eq_true .. |>.mp hx).1
  · intro criteria lim off e he
    have hmem : e ∈ s.entries.filter (filterApprovedMatch criteria) :=
      mem_sortBy.mp (mem_of_mem_sqlPaginate he)
    refine approved_of_mem_filter hmem fun x hx => ?_
    simp only [filterApprovedMatch, Bool.and_eq_true] at hx
    simpa using hx.1
  · intro criteria lim off e hcrit he
    have hmem : e ∈ s.entries.filter (mongoFilterMatch criteria) :=
      mem_sortBy.mp (mem_of_mem_mongoPaginate he)
    have hmatch : mongoFilterMatch criteria e = true := (List.mem_filter.mp hmem).2
    have hall := (List.all_eq_true.mp hmatch) ("status", "approved")
      (status_mem_mongoCombinedFilter hcrit)
    simpa [entryField_status] using hall
  · cases db <;> rfl
  · cases db <;>
      simp [configExistsApproved, List.length_pos_iff_exists_mem, List.mem_filter,
        and_assoc]

/-- An empty store. -/
def emptyStore : Store := { entries := [], requests := [], uniqueKeyIndex := false }

/-- C1 witness: in the empty store the fresh-request-id hypothesis holds, and
submit_create of key `k` followed by a default read of `k` returns no
result. -/
theorem c1_witness :
    (∀ r ∈ emptyStore.requests, r.request_id ≠ "rid1") ∧
    readApprovedConfig .mysql (submitConfigForApproval .mysql emptyStore "create"
        "k" (some "v") "d" "m" none "rid1" 7).2 "k" = [] :=
  ⟨by simp [emptyStore], (c1_approved_only_visibility .mysql emptyStore "create" "k"
      (some "v") "d" "m" none "rid1" 7 (by simp [emptyStore])).2.1
      (by simp [emptyStore])⟩

/-! ## Claim C2 — approval aborts when applying the change fails -/

/-- A failing direct-write application leaves the store unchanged: each of
the three direct operations either succeeds or (for a failing insert)
returns the store as it was. -/
theorem applyApprovedOperation_error_state {db : DBType} {s : Store}
    {request : ApprovalRequest} {now : Nat} {e : String}
    (h : (applyApprovedOperation db s request now).1 = .error e) :
    (applyApprovedOperation db s request now).2 = s := by
  cases db <;>
    simp only [applyApprovedOperation, createConfigDirect, updateConfigDirect,
      deleteConfigDirect, insertViolatesUnique] at h ⊢ <;>
    split_ifs at h ⊢ <;>
    simp_all

/-- C2: if the request exists in pending status but re-applying its change
through the direct-write path fails, approveRequest returns an error, the
request-status update is never executed, and the store — in particular the
request, still pending — is exactly as before the call. -/
theorem c2_approve_apply_failure_aborts
    (db : DBType) (s : Store) (requestID checkerID comment : String) (now : Nat)
    (request : ApprovalRequest) (e : String)
    (hpending : getPendingRequestByID db s requestID = some request)
    (happly : (applyApprovedOperation db s request now).1 = .error e) :
    approveRequest db s requestID checkerID comment now
      = (.error ("failed to apply approved change: " ++ e), s) ∧
    getPendingRequestByID db
      (approveRequest db s requestID checkerID comment now).2 requestID
      = some request := by
  have hstate := applyApprovedOperation_error_state happly
  have hmain : approveRequest db s requestID checkerID comment now
      = (.error ("failed to apply approved change: " ++ e), s) := by
    unfold approveRequest
    rw [hpending]
    dsimp only
    rcases hap : applyApprovedOperation db s request now with ⟨r1, s1⟩
    rw [hap] at happly hstate
    simp only at happly hstate
    subst happly
    subst hstate
    rfl
  exact ⟨hmain, by rw [hmain, hpending]⟩

/-- A pending create request for key `k`. -/
def dupCreateRequest : ApprovalRequest :=
  { request_id := "r1", config_key := "k", config_value := some "v1",
    description := "d1", operation := "create", maker_id := "m1",
    checker_id := "", status := "pending", requested_at := 2,
    processed_at := none, approval_comment := "", previous_value := some "" }

/-- A store whose entries table already holds key `k` and whose requests
table holds a pending create request for the same key. -/
def dupCreateStore : Store :=
  { entries := [{ config_key := "k", config_value := "v0", description := "d0",
                  status := "approved", maker_id := "m0", checker_id := "",
                  created_at := 1, updated_at := 1, approved_at := some 1 }],
    requests := [dupCreateRequest],
    uniqueKeyIndex := false }

/-- C2 witness: approving the pending create request for an already-existing
key fails (duplicate key) and leaves the store — request still pending —
unchanged. -/
theorem c2_witness :
    getPendingRequestByID .mysql dupCreateStore "r1" = some dupCreateRequest ∧
    approveRequest .mysql dupCreateStore "r1" "chk" "ok" 5
      = (.error ("failed to apply approved change: " ++ "duplicate key k"),
         dupCreateStore) :=
  ⟨by rfl, (c2_approve_apply_failure_aborts .mysql dupCreateStore "r1" "chk" "ok" 5
      dupCreateRequest "duplicate key k" (by rfl) (by rfl)).1⟩

/-! ## Claim C3 — approve/reject on unknown or resolved requests -/

/-- The request-status update is the identity when no request carries the
given id. -/
theorem updateApprovalRequestStatus_no_match {db : DBType} {s : Store}
    {requestID status checkerID comment : String} {now : Nat}
    (h : ∀ r ∈ s.requests, r.request_id ≠ requestID) :
    updateApprovalRequestStatus db s requestID status checkerID comment now = s := by
  have hmap : (s.requests.map fun r =>
      if r.request_id == requestID then
        { r with status := status, checker_id := checkerID,
                 approval_comment := comment, processed_at := some now }
      else r) = s.requests := by
    conv_rhs => rw [← List.map_id s.requests]
    exact List.map_congr_left fun r hr => by simp [h r hr]
  cases db <;> simp only [updateApprovalRequestStatus, hmap]

/-- An already-resolved (approved) request. -/
def resolvedRequest : ApprovalRequest :=
  { request_id := "r1", config_key := "k", config_value := some "v",
    description := "d", operation := "create", maker_id := "m",
    checker_id := "c0", status := "approved", requested_at := 2,
    processed_at := some 3, approval_comment := "fine", previous_value := some "" }

/-- A store whose only request is already resolved. -/
def resolvedStore : Store :=
  { entries := [], requests := [resolvedRequest], uniqueKeyIndex := false }

/-- C3 counterexample: the claim asserts that reject on an already-resolved
request fails with a not-found error and leaves the store unchanged.
rejectRequest (part_001 lines 1749-1763) performs the status update with no
pending check: rejecting the already-approved request `r1` succeeds and
overwrites its status to rejected. -/
theorem c3_counterexample :
    (rejectRequest .mysql resolvedStore "r1" "chk" "nope" 9).1
      = .ok { request_id := "r1", status := "rejected", checker_id := "chk",
              approval_comment := "nope" } ∧
    (rejectRequest .mysql resolvedStore "r1" "chk" "nope" 9).2 ≠ resolvedStore ∧
    ((rejectRequest .mysql resolvedStore "r1" "chk" "nope" 9).2.requests.map
      (·.status)) = ["rejected"] := by
  exact ⟨rfl, by decide, rfl⟩

/-- C3 (amended): approveRequest on a request id that is unknown or not
pending fails with the not-found error and leaves the store unchanged;
rejectRequest, however, performs an unconditional status update: it always
returns success, on an unknown id it changes nothing, and on a known id —
pending or resolved — it overwrites the request's status to rejected. -/
theorem c3_decision_on_unknown_or_resolved
    (db : DBType) (s : Store) (requestID checkerID comment : String) (now : Nat) :
    (getPendingRequestByID db s requestID = none →
      approveRequest db s requestID checkerID comment now
        = (.error "request not found or not in pending status", s)) ∧
    ((rejectRequest db s requestID checkerID comment now).1
      = .ok { request_id := requestID, status := "rejected",
              checker_id := checkerID, approval_comment := comment }) ∧
    ((∀ r ∈ s.requests, r.request_id ≠ requestID) →
      (rejectRequest db s requestID checkerID comment now).2 = s) ∧
    (∀ r ∈ s.requests, r.request_id = requestID →
      { r with status := "rejected", checker_id := checkerID,
               approval_comment := comment, processed_at := some now }
        ∈ (rejectRequest db s requestID checkerID comment now).2.requests) := by
  refine ⟨?_, rfl, ?_, ?_⟩
  · intro hnone
    unfold approveRequest
    rw [hnone]
  · intro hno
    exact updateApprovalRequestStatus_no_match hno
  · intro r hr hid
    have : (rejectRequest db s requestID checkerID comment now).2.requests
        = s.requests.map fun x =>
          if x.request_id == requestID then
            { x with status := "rejected", checker_id := checkerID,
                     approval_comment := comment, processed_at := some now }
          else x := by
      cases db <;> rfl
    rw [this]
    have := List.mem_map_of_mem (f := fun x : ApprovalRequest =>
      if x.request_id == requestID then
        { x with status := "rejected", checker_id := checkerID,
                 approval_comment := comment, processed_at := some now }
      else x) hr
    simpa [hid] using this

/-- C3 witness: in the resolved-request store, the id `zz` is unknown —
approve fails with not-found and reject is a successful no-op. -/
theorem c3_witness :
    getPendingRequestByID .mysql resolvedStore "zz" = none ∧
    approveRequest .mysql resolvedStore "zz" "chk" "c" 9
      = (.error "request not found or not in pending status", resolvedStore) ∧
    (rejectRequest .mysql resolvedStore "zz" "chk" "c" 9).2 = resolvedStore :=
  ⟨by rfl,
   (c3_decision_on_unknown_or_resolved .mysql resolvedStore "zz" "chk" "c" 9).1 (by rfl),
   (c3_decision_on_unknown_or_resolved .mysql resolvedStore "zz" "chk" "c" 9).2.2.1
     (by decide)⟩

/-! ## Claim C4 — updateDirect as an upsert -/

/-- C4 counterexample: the claim asserts that for every backend
updateDirect creates a new entry when the key does not exist.  On the
relational backends updateConfigDirect runs a plain `UPDATE ... WHERE
config_key = ?` (part_001 lines 2425-2437): with an empty entries table
the call succeeds but creates nothing. -/
theorem c4_counterexample :
    (updateConfigDirect .mysql emptyStore "k" "v" "d" "m" 7).1 = .ok () ∧
    (updateConfigDirect .mysql emptyStore "k" "v" "d" "m" 7).2 = emptyStore := by
  exact ⟨rfl, rfl⟩

/-- updateFirstMatch never touches `created_at`. -/
theorem updateFirstMatch_created_at (l : List ConfigEntry)
    (key value description makerID : String) (now : Nat) :
    (updateFirstMatch l key value description makerID now).map (·.created_at)
      = l.map (·.created_at) := by
  induction l with
  | nil => rfl
  | cons e rest ih =>
    by_cases h : (e.config_key == key) = true <;>
      simp [updateFirstMatch, h, ih]

/-- C4 (amended): updateDirect never fails and forces `status = 'approved'`
on what it writes; on the relational backends it is a plain update —
existing rows get value and description replaced with `created_at`
preserved, and when the key does not exist nothing is created and the store
is unchanged; only the document backend upserts, inserting a new document
(with `created_at` stamped now) when the key is absent and updating the
first matching document, `created_at` preserved, when it is present. -/
theorem c4_update_direct_semantics
    (s : Store) (key value description makerID : String) (now : Nat) :
    (∀ db, (updateConfigDirect db s key value description makerID now).1 = .ok ()) ∧
    (∀ db, db ≠ DBType.mongodb →
      (updateConfigDirect db s key value description makerID now).2.entries.map
          (·.created_at) = s.entries.map (·.created_at)) ∧
    (∀ db, db ≠ DBType.mongodb → (∀ e ∈ s.entries, e.config_key ≠ key) →
      (updateConfigDirect db s key value description makerID now).2 = s) ∧
    (∀ db, db ≠ DBType.mongodb → ∀ e ∈ s.entries, e.config_key = key →
      { e with config_value := value, description := description,
               status := "approved", maker_id := makerID,
               updated_at := now, approved_at := some now }
        ∈ (updateConfigDirect db s key value description makerID now).2.entries) ∧
    ((∀ e ∈ s.entries, e.config_key ≠ key) →
      (updateConfigDirect .mongodb s key value description makerID now).2.entries
        = s.entries ++ [mkApprovedEntry key value description makerID now]) ∧
    ((s.entries.any fun e => e.config_key == key) = true →
      (updateConfigDirect .mongodb s key value description makerID now).2.entries.map
          (·.created_at) = s.entries.map (·.created_at)) := by
  refine ⟨?_, ?_, ?_, ?_, ?_, ?_⟩
  · intro db
    cases db with
    | mysql | postgresql => rfl
    | mongodb =>
      simp only [updateConfigDirect]
      split <;> rfl
  · intro db hdb
    cases db with
    | mongodb => exact absurd rfl hdb
    | mysql | postgresql =>
      simp only [updateConfigDirect, List.map_map]
      refine List.map_congr_left fun e he => ?_
      simp only [Function.comp_apply]
      split <;> rfl
  · intro db hdb hno
    cases db with
    | mongodb => exact absurd rfl hdb
    | mysql | postgresql =>
      have hmap : (s.entries.map fun e =>
          if e.config_key == key then
            { e with config_value := value, description := description,
                     status := "approved", maker_id := makerID,
                     updated_at := now, approved_at := some now }
          else e) = s.entries := by
        conv_rhs => rw [← List.map_id s.entries]
        exact List.map_congr_left fun e he => by simp [hno e he]
      simp only [updateConfigDirect, hmap]
  · intro db hdb e he hkey
    cases db with
    | mongodb => exact absurd rfl hdb
    | mysql | postgresql =>
      simp only [updateConfigDirect]
      exact List.mem_map.mpr ⟨e, he, by simp [hkey]⟩
  · intro hno
    have hany : (s.entries.any fun e => e.config_key == key) = false := by
      rw [List.any_eq_false]
      intro e he
      simp [hno e he]
    simp [updateConfigDirect, hany]
  · intro hany
    simp [updateConfigDirect, hany, updateFirstMatch_created_at]

/-- A store holding one approved entry for key `k`. -/
def oneEntryStore : Store :=
  { entries := [{ config_key := "k", config_value := "v0", description := "d0",
                  status := "approved", maker_id := "m0", checker_id := "",
                  created_at := 1, updated_at := 1, approved_at := some 1 }],
    requests := [], uniqueKeyIndex := false }

/-- C4 witness: updating the existing key `k` on the relational backend
replaces value and description, forces approved status and preserves
`created_at`; updating a missing key leaves the store unchanged. -/
theorem c4_witness :
    ({ config_key := "k", config_value := "v1", description := "d1",
       status := "approved", maker_id := "m1", checker_id := "",
       created_at := 1, updated_at := 9, approved_at := some 9 : ConfigEntry }
      ∈ (updateConfigDirect .mysql oneEntryStore "k" "v1" "d1" "m1" 9).2.entries) ∧
    (updateConfigDirect .mysql oneEntryStore "zz" "v1" "d1" "m1" 9).2 = oneEntryStore :=
  ⟨by
    have h := (c4_update_direct_semantics oneEntryStore "k" "v1" "d1" "m1" 9).2.2.2.1
      .mysql (by decide)
      { config_key := "k", config_value := "v0", description := "d0",
        status := "approved", maker_id := "m0", checker_id := "",
        created_at := 1, updated_at := 1, approved_at := some 1 }
      (by decide) rfl
    simpa using h,
   (c4_update_direct_semantics oneEntryStore "zz" "v1" "d1" "m1" 9).2.2.1
     .mysql (by decide) (by decide)⟩

/-! ## Claim C7 — batch operations are independent and summarized -/

/-- One-step unfolding of the create loop when the head item inserts
successfully. -/
theorem createMultipleLoop_cons_ok (db : DBType) (s : Store) (c : ConfigItem)
    (rest : List ConfigItem) (now : Nat)
    (h : insertViolatesUnique db s c.key = false) :
    createMultipleLoop db s now (c :: rest)
      = ((c.key, ItemResult.success)
          :: (createMultipleLoop db { s with entries := s.entries
              ++ [mkApprovedEntry c.key c.value c.description c.maker_id now] }
              now rest).1,
         (createMultipleLoop db { s with entries := s.entries
              ++ [mkApprovedEntry c.key c.value c.description c.maker_id now] }
              now rest).2.1 + 1,
         (createMultipleLoop db { s with entries := s.entries
              ++ [mkApprovedEntry c.key c.value c.description c.maker_id now] }
              now rest).2.2) := by
  simp [createMultipleLoop, createConfigDirect, h]

/-- One-step unfolding of the create loop when the head item violates the
unique-key constraint: an error is recorded under the item key, the store is
unchanged and the loop continues with the remaining items. -/
theorem createMultipleLoop_cons_err (db : DBType) (s : Store) (c : ConfigItem)
    (rest : List ConfigItem) (now : Nat)
    (h : insertViolatesUnique db s c.key = true) :
    createMultipleLoop db s now (c :: rest)
      = ((c.key, ItemResult.failure ("duplicate key " ++ c.key))
          :: (createMultipleLoop db s now rest).1,
         (createMultipleLoop db s now rest).2.1,
         (createMultipleLoop db s now rest).2.2) := by
  simp [createMultipleLoop, createConfigDirect, h]

/-- Every batch item contributes exactly one result, under its own key and
in input order. -/
theorem createMultipleLoop_keys (db : DBType) (now : Nat) :
    ∀ (configs : List ConfigItem) (s : Store),
      (createMultipleLoop db s now configs).1.map Prod.fst = configs.map (·.key) := by
  intro configs
  induction configs with
  | nil => intro s; rfl
  | cons c rest ih =>
    intro s
    cases h : insertViolatesUnique db s c.key with
    | true => rw [createMultipleLoop_cons_err db s c rest now h]; simp [ih]
    | false => rw [createMultipleLoop_cons_ok db s c rest now h]; simp [ih]

/-- The success count never exceeds the item count. -/
theorem createMultipleLoop_count_le (db : DBType) (now : Nat) :
    ∀ (configs : List ConfigItem) (s : Store),
      (createMultipleLoop db s now configs).2.1 ≤ configs.length := by
  intro configs
  induction configs with
  | nil => intro s; exact Nat.le_refl 0
  | cons c rest ih =>
    intro s
    cases h : insertViolatesUnique db s c.key with
    | true =>
      rw [createMultipleLoop_cons_err db s c rest now h]
      exact Nat.le_succ_of_le (ih s)
    | false =>
      rw [createMultipleLoop_cons_ok db s c rest now h]
      exact Nat.succ_le_succ (ih _)

/-- The delete loop deletes every item independently and never fails: its
per-key results are all successes, in input order. -/
theorem deleteMultipleLoop_results (db : DBType) :
    ∀ (configs : List ConfigItem) (s : Store),
      (deleteMultipleLoop db s configs).1
        = configs.map fun c => (c.key, ItemResult.success) := by
  intro configs
  induction configs with
  | nil => intro s; rfl
  | cons c rest ih =>
    intro s
    cases db <;> simp [deleteMultipleLoop, deleteConfigDirect, ih]

/-- The delete loop counts every item as a success. -/
theorem deleteMultipleLoop_count (db : DBType) :
    ∀ (configs : List ConfigItem) (s : Store),
      (deleteMultipleLoop db s configs).2.1 = configs.length := by
  intro configs
  induction configs with
  | nil => intro s; rfl
  | cons c rest ih =>
    intro s
    cases db <;> simp [deleteMultipleLoop, deleteConfigDirect, ih]

/-- Processing a concatenation of batches is processing them in sequence. -/
theorem createMultipleLoop_append (db : DBType) (now : Nat) :
    ∀ (xs ys : List ConfigItem) (s : Store),
      createMultipleLoop db s now (xs ++ ys)
        = ((createMultipleLoop db s now xs).1
            ++ (createMultipleLoop db (createMultipleLoop db s now xs).2.2 now ys).1,
           (createMultipleLoop db s now xs).2.1
            + (createMultipleLoop db (createMultipleLoop db s now xs).2.2 now ys).2.1,
           (createMultipleLoop db (createMultipleLoop db s now xs).2.2 now ys).2.2) := by
  intro xs
  induction xs with
  | nil => intro ys s; simp [createMultipleLoop]
  | cons c rest ih =>
    intro ys s
    rw [List.cons_append]
    cases h : insertViolatesUnique db s c.key with
    | true =>
      rw [createMultipleLoop_cons_err db s c (rest ++ ys) now h,
        createMultipleLoop_cons_err db s c rest now h, ih ys s]
      simp
    | false =>
      rw [createMultipleLoop_cons_ok db s c (rest ++ ys) now h,
        createMultipleLoop_cons_ok db s c rest now h, ih ys _]
      simp [Nat.add_right_comm]

/-- The rows created by a list of batch items. -/
def entriesOfItems (items : List ConfigItem) (now : Nat) : List ConfigEntry :=
  items.map fun c => mkApprovedEntry c.key c.value c.description c.maker_id now

/-- Running the create loop over items whose keys are pairwise distinct and
all absent from the store: every item succeeds (on any backend — a fresh
key violates no uniqueness constraint) and the entries table is extended by
the created rows in order. -/
theorem createMultipleLoop_fresh (db : DBType) (now : Nat) :
    ∀ (items : List ConfigItem) (s : Store),
      (∀ c ∈ items, ∀ e ∈ s.entries, e.config_key ≠ c.key) →
      (items.map (·.key)).Nodup →
      createMultipleLoop db s now items
        = (items.map fun c => (c.key, ItemResult.success), items.length,
           { s with entries := s.entries ++ entriesOfItems items now }) := by
  intro items
  induction items with
  | nil => intro s _ _; simp [createMultipleLoop, entriesOfItems]
  | cons c rest ih =>
    intro s hfresh hnodup
    have hn : c.key ∉ rest.map (·.key) ∧ (rest.map (·.key)).Nodup := by
      simpa [List.nodup_cons] using hnodup
    have hany : (s.entries.any fun e => e.config_key == c.key) = false := by
      rw [List.any_eq_false]
      intro e he
      simp [hfresh c (List.mem_cons_self c rest) e he]
    have hviol : insertViolatesUnique db s c.key = false := by
      cases db <;> simp [insertViolatesUnique, hany]
    have hcond : ∀ x ∈ rest,
        ∀ e ∈ s.entries ++ [mkApprovedEntry c.key c.value c.description c.maker_id now],
        e.config_key ≠ x.key := by
      intro x hx e he
      rcases List.mem_append.mp he with he | he
      · exact hfresh x (List.mem_cons_of_mem c hx) e he
      · have he2 : e = mkApprovedEntry c.key c.value c.description c.maker_id now := by
          simpa using he
        subst he2
        simp only [mkApprovedEntry]
        intro hcontra
        exact hn.1 (by rw [hcontra]; exact List.mem_map_of_mem (·.key) hx)
    have hrest := ih
      { s with entries := s.entries ++ [mkApprovedEntry c.key c.value c.description c.maker_id now] }
      hcond hn.2
    rw [createMultipleLoop_cons_ok db s c rest now hviol, hrest]
    simp [entriesOfItems, List.append_assoc]

/-- On the document backend without a unique index on `config_key` every
insert succeeds, duplicates included: the documents are simply appended. -/
theorem createMultipleLoop_mongo_noindex (now : Nat) :
    ∀ (items : List ConfigItem) (s : Store), s.uniqueKeyIndex = false →
      createMultipleLoop .mongodb s now items
        = (items.map fun c => (c.key, ItemResult.success), items.length,
           { s with entries := s.entries ++ entriesOfItems items now }) := by
  intro items
  induction items with
  | nil => intro s _; simp [createMultipleLoop, entriesOfItems]
  | cons c rest ih =>
    intro s h
    have hviol : insertViolatesUnique .mongodb s c.key = false := by
      simp [insertViolatesUnique, h]
    have hrest := ih
      { s with entries := s.entries ++ [mkApprovedEntry c.key c.value c.description c.maker_id now] }
      h
    rw [createMultipleLoop_cons_ok .mongodb s c rest now hviol, hrest]
    simp [entriesOfItems, List.append_assoc]

/-- updateConfigDirect never fails on any backend (plain UPDATE / upsert). -/
theorem updateConfigDirect_ok (db : DBType) (s : Store)
    (key value description makerID : String) (now : Nat) :
    (updateConfigDirect db s key value description makerID now).1 = .ok () := by
  cases db with
  | mysql | postgresql => rfl
  | mongodb =>
    simp only [updateConfigDirect]
    split <;> rfl

/-- The update loop updates every item independently and never fails: its
per-key results are all successes, in input order. -/
theorem updateMultipleLoop_results (db : DBType) (now : Nat) :
    ∀ (configs : List ConfigItem) (s : Store),
      (updateMultipleLoop db s now configs).1
        = configs.map fun c => (c.key, ItemResult.success) := by
  intro configs
  induction configs with
  | nil => intro s; rfl
  | cons c rest ih =>
    intro s
    rcases h : updateConfigDirect db s c.key c.value c.description c.maker_id now
      with ⟨r, s1⟩
    have hok := updateConfigDirect_ok db s c.key c.value c.description c.maker_id now
    rw [h] at hok
    simp only at hok
    subst hok
    simp [updateMultipleLoop, h, ih]

/-- The update loop counts every item as a success. -/
theorem updateMultipleLoop_count (db : DBType) (now : Nat) :
    ∀ (configs : List ConfigItem) (s : Store),
      (updateMultipleLoop db s now configs).2.1 = configs.length := by
  intro configs
  induction configs with
  | nil => intro s; rfl
  | cons c rest ih =>
    intro s
    rcases h : updateConfigDirect db s c.key c.value c.description c.maker_id now
      with ⟨r, s1⟩
    have hok := updateConfigDirect_ok db s c.key c.value c.description c.maker_id now
    rw [h] at hok
    simp only at hok
    subst hok
    simp [updateMultipleLoop, h, ih]

/-- Batch item with a fresh key `a`. -/
def itemA : ConfigItem :=
  { key := "a", value := "va", description := "da", maker_id := "m" }

/-- Batch item whose key `k` duplicates the existing entry. -/
def itemK : ConfigItem :=
  { key := "k", value := "vk", description := "dk", maker_id := "m" }

/-- Batch item with a fresh key `c`. -/
def itemC : ConfigItem :=
  { key := "c", value := "vc", description := "dc", maker_id := "m" }

/-- C7 counterexample: the claim asserts that on every backend a batch
create of N items with exactly one duplicate key yields
success_count = N - 1 and failure_count = 1.  On the document backend the
shipped create_table path never creates the unique index on `config_key`
(mongodb.go has no createIndex operation), so a duplicate insert succeeds:
a batch of two items, one of whose keys already exists, yields
success_count = 2 and failure_count = 0. -/
theorem c7_counterexample :
    (∃ e ∈ oneEntryStore.entries, e.config_key = itemK.key) ∧
    oneEntryStore.uniqueKeyIndex = false ∧
    (createMultipleConfigsDirect .mongodb oneEntryStore [itemA, itemK]
      9).1.success_count = 2 ∧
    (createMultipleConfigsDirect .mongodb oneEntryStore [itemA, itemK]
      9).1.failure_count = 0 := by
  refine ⟨by decide, rfl, rfl, rfl⟩

/-- C7 (amended): every batch create/update/delete performs each item
independently on every backend — one result per key in input order, with
success and failure counts partitioning the total, and a failure in one
item never aborting the rest; batch update and delete never fail an item.
A batch create whose items are fresh except for exactly one key that
already exists yields success_count = N - 1, failure_count = 1 and an error
recorded under the duplicate key wherever the unique-key constraint is in
force — always on the relational backends, on the document backend only
when a unique index exists on the key field; without one (as the shipped
create_table leaves the collection) the duplicate insert succeeds and
success_count = N. -/
theorem c7_batch_independent_summary :
    (∀ (db : DBType) (s : Store) (configs : List ConfigItem) (now : Nat),
      (createMultipleConfigsDirect db s configs now).1.total_items = configs.length ∧
      (createMultipleConfigsDirect db s configs now).1.failure_count
          + (createMultipleConfigsDirect db s configs now).1.success_count
        = configs.length ∧
      (createMultipleConfigsDirect db s configs now).1.results.map Prod.fst
        = configs.map (·.key)) ∧
    (∀ (db : DBType) (s : Store) (configs : List ConfigItem) (now : Nat),
      (updateMultipleConfigsDirect db s configs now).1.total_items = configs.length ∧
      (updateMultipleConfigsDirect db s configs now).1.success_count = configs.length ∧
      (updateMultipleConfigsDirect db s configs now).1.failure_count = 0 ∧
      (updateMultipleConfigsDirect db s configs now).1.results
        = configs.map fun c => (c.key, ItemResult.success)) ∧
    (∀ (db : DBType) (s : Store) (configs : List ConfigItem),
      (deleteMultipleConfigsDirect db s configs).1.total_items = configs.length ∧
      (deleteMultipleConfigsDirect db s configs).1.success_count = configs.length ∧
      (deleteMultipleConfigsDirect db s configs).1.failure_count = 0 ∧
      (deleteMultipleConfigsDirect db s configs).1.results
        = configs.map fun c => (c.key, ItemResult.success)) ∧
    (∀ (db : DBType) (s : Store) (pre : List ConfigItem) (dup : ConfigItem)
        (post : List ConfigItem) (now : Nat),
      (db = DBType.mongodb → s.uniqueKeyIndex = true) →
      ((pre ++ dup :: post).map (·.key)).Nodup →
      (∀ c ∈ pre ++ post, ∀ e ∈ s.entries, e.config_key ≠ c.key) →
      (∃ e ∈ s.entries, e.config_key = dup.key) →
      (createMultipleConfigsDirect db s (pre ++ dup :: post) now).1.total_items
        = pre.length + 1 + post.length ∧
      (createMultipleConfigsDirect db s (pre ++ dup :: post) now).1.success_count
        = pre.length + post.length ∧
      (createMultipleConfigsDirect db s (pre ++ dup :: post) now).1.failure_count
        = 1 ∧
      (createMultipleConfigsDirect db s (pre ++ dup :: post) now).1.results
        = (pre.map fun c => (c.key, ItemResult.success))
          ++ (dup.key, ItemResult.failure ("duplicate key " ++ dup.key))
          :: post.map fun c => (c.key, ItemResult.success)) ∧
    (∀ (s : Store) (configs : List ConfigItem) (now : Nat),
      s.uniqueKeyIndex = false →
      (createMultipleConfigsDirect .mongodb s configs now).1.success_count
        = configs.length ∧
      (createMultipleConfigsDirect .mongodb s configs now).1.failure_count = 0 ∧
      (createMultipleConfigsDirect .mongodb s configs now).1.results
        = configs.map fun c => (c.key, ItemResult.success)) := by
  refine ⟨?_, ?_, ?_, ?_, ?_⟩
  · intro db s configs now
    refine ⟨rfl, ?_, createMultipleLoop_keys db now configs s⟩
    have h := createMultipleLoop_count_le db now configs s
    simp only [createMultipleConfigsDirect]
    omega
  · intro db s configs now
    exact ⟨rfl, updateMultipleLoop_count db now configs s,
      by simp [updateMultipleConfigsDirect, updateMultipleLoop_count db now configs s],
      updateMultipleLoop_results db now configs s⟩
  · intro db s configs
    exact ⟨rfl, deleteMultipleLoop_count db configs s,
      by simp [deleteMultipleConfigsDirect, deleteMultipleLoop_count db configs s],
      deleteMultipleLoop_results db configs s⟩
  · intro db s pre dup post now henf hnodup hfresh hdup
    have hmapkeys : ((pre ++ dup :: post).map (·.key))
        = pre.map (·.key) ++ dup.key :: post.map (·.key) := by simp
    rw [hmapkeys] at hnodup
    have hparts := List.nodup_append.mp hnodup
    have hpre_nodup : (pre.map (·.key)).Nodup := hparts.1
    have hpost_nodup : (post.map (·.key)).Nodup := (List.nodup_cons.mp hparts.2.1).2
    have hdisj : ∀ k ∈ pre.map (·.key), k ∉ dup.key :: post.map (·.key) :=
      fun k hk => hparts.2.2 hk
    have hprerun := createMultipleLoop_fresh db now pre s
      (fun c hc e he => hfresh c (List.mem_append_left post hc) e he) hpre_nodup
    obtain ⟨edup, hedup, hkdup⟩ := hdup
    have hany : ((s.entries ++ entriesOfItems pre now).any
        fun e => e.config_key == dup.key) = true :=
      List.any_eq_true.mpr ⟨edup, List.mem_append_left _ hedup, by simp [hkdup]⟩
    have hviol : insertViolatesUnique db
        { s with entries := s.entries ++ entriesOfItems pre now } dup.key = true := by
      cases db with
      | mysql | postgresql => simpa [insertViolatesUnique] using hany
      | mongodb => simpa [insertViolatesUnique, henf rfl] using hany
    have hcondpost : ∀ c ∈ post,
        ∀ e ∈ s.entries ++ entriesOfItems pre now, e.config_key ≠ c.key := by
      intro c hc e he
      rcases List.mem_append.mp he with he | he
      · exact hfresh c (List.mem_append_right pre hc) e he
      · obtain ⟨cp, hcp, hcpe⟩ := List.mem_map.mp he
        subst hcpe
        have hnotin : cp.key ∉ dup.key :: post.map (·.key) :=
          hdisj cp.key (List.mem_map_of_mem (·.key) hcp)
        simp only [mkApprovedEntry]
        intro hcontra
        exact hnotin (List.mem_cons_of_mem _
          (by rw [hcontra]; exact List.mem_map_of_mem (·.key) hc))
    have hpostrun := createMultipleLoop_fresh db now post
      { s with entries := s.entries ++ entriesOfItems pre now } hcondpost hpost_nodup
    have hduprun : createMultipleLoop db
        { s with entries := s.entries ++ entriesOfItems pre now } now (dup :: post)
        = ((dup.key, ItemResult.failure ("duplicate key " ++ dup.key))
            :: (post.map fun c => (c.key, ItemResult.success)),
           post.length,
           { s with entries := (s.entries ++ entriesOfItems pre now)
              ++ entriesOfItems post now }) := by
      rw [createMultipleLoop_cons_err db _ dup post now hviol, hpostrun]
    have hloop := createMultipleLoop_append db now pre (dup :: post) s
    rw [hprerun] at hloop
    simp only at hloop
    rw [hduprun] at hloop
    refine ⟨?_, ?_, ?_, ?_⟩
    · simp [createMultipleConfigsDirect]
      omega
    · simp [createMultipleConfigsDirect, hloop]
    · simp [createMultipleConfigsDirect, hloop]
      omega
    · simp [createMultipleConfigsDirect, hloop]
  · intro s configs now hnoidx
    have h := createMultipleLoop_mongo_noindex now configs s hnoidx
    exact ⟨by simp [createMultipleConfigsDirect, h],
      by simp [createMultipleConfigsDirect, h],
      by simp [createMultipleConfigsDirect, h]⟩

/-- C7 witness: a batch create of three items against a relational store
already holding key `k` succeeds on the two fresh keys, fails on the
duplicate, and records the error under the duplicate key. -/
theorem c7_witness :
    (DBType.mysql = DBType.mongodb → oneEntryStore.uniqueKeyIndex = true) ∧
    (createMultipleConfigsDirect .mysql oneEntryStore ([itemA] ++ itemK :: [itemC])
      9).1.success_count = 2 ∧
    (createMultipleConfigsDirect .mysql oneEntryStore ([itemA] ++ itemK :: [itemC])
      9).1.failure_count = 1 ∧
    (createMultipleConfigsDirect .mysql oneEntryStore ([itemA] ++ itemK :: [itemC])
      9).1.results
      = [("a", ItemResult.success), ("k", ItemResult.failure ("duplicate key " ++ "k")),
         ("c", ItemResult.success)] := by
  have h := c7_batch_independent_summary.2.2.2.1 .mysql oneEntryStore [itemA] itemK
    [itemC] 9 (by decide) (by decide) (by decide) (by decide)
  exact ⟨by decide, by simpa using h.2.1, h.2.2.1,
    by simpa [itemA, itemK, itemC] using h.2.2.2⟩

/-! ## Claim C9 — search as case-insensitive substring match -/

/-- Pointwise-equal predicates agree on `any`. -/
theorem listAnyCongr {l : List α} {f g : α → Bool} (h : ∀ x ∈ l, f x = g x) :
    l.any f = l.any g := by
  induction l with
  | nil => rfl
  | cons a as ih =>
    simp only [List.any_cons, h a (List.mem_cons_self a as),
      ih fun x hx => h x (List.mem_cons_of_mem a hx)]

/-- Some suffix of every subject is empty, so a bare `%` matches anything. -/
theorem tailsList_any_empty (cs : List Char) :
    (tailsList cs).any (fun s => s.isEmpty) = true := by
  induction cs with
  | nil => rfl
  | cons c cs ih => simp [tailsList, ih]

/-- A pattern consisting of a single `%` matches every subject. -/
theorem likeMatch_percent_any (cs : List Char) : likeMatch ['%'] cs = true := by
  have h := tailsList_any_empty cs
  simpa [likeMatch] using h

/-- A wildcard-free pattern followed by `%` matches exactly the subjects it
is a case-insensitive prefix of. -/
theorem likeMatch_plain_append_percent :
    ∀ ts : List Char, (∀ c ∈ ts, c ≠ '%' ∧ c ≠ '_') →
      ∀ cs, likeMatch (ts ++ ['%']) cs = isPrefixCi ts cs := by
  intro ts
  induction ts with
  | nil => intro _ cs; simpa [isPrefixCi] using likeMatch_percent_any cs
  | cons t ts ih =>
    intro h cs
    have ht := h t (List.mem_cons_self t ts)
    have hrest := ih fun c hc => h c (List.mem_cons_of_mem t hc)
    cases cs with
    | nil => simp [likeMatch, ht.1, isPrefixCi]
    | cons c cs => simp [likeMatch, ht.1, ht.2, isPrefixCi, hrest cs]

/-- The substring relation as a search over all suffixes. -/
theorem containsCi_eq_any_tails (t : List Char) :
    ∀ cs, containsCi t cs = (tailsList cs).any (isPrefixCi t) := by
  intro cs
  induction cs with
  | nil => simp [containsCi, tailsList]
  | cons c cs ih => simp [containsCi, tailsList, ih]

/-- For a wildcard-free term, LIKE-matching the pattern `%term%` is exactly
case-insensitive substring containment. -/
theorem strLike_wrap_eq_contains {term : String} (h : noLikeWildcard term = true)
    (s : String) : strLike ("%" ++ term ++ "%") s = strContainsCi term s := by
  have hts : ∀ c ∈ term.toList, c ≠ '%' ∧ c ≠ '_' := by
    intro c hc
    have hb := List.all_eq_true.mp h c hc
    simp only [Bool.and_eq_true, bne_iff_ne, ne_eq] at hb
    exact hb
  have hpat : ("%" ++ term ++ "%").toList = '%' :: (term.toList ++ ['%']) := by
    show ("%" ++ term ++ "%").data = '%' :: (term.data ++ ['%'])
    rw [String.data_append, String.data_append]
    rfl
  rw [strLike, hpat]
  have hstep : likeMatch ('%' :: (term.toList ++ ['%'])) s.toList
      = (tailsList s.toList).any fun suffix => likeMatch (term.toList ++ ['%']) suffix := by
    simp [likeMatch]
  rw [hstep,
    listAnyCongr fun x _ => likeMatch_plain_append_percent term.toList hts x,
    strContainsCi, containsCi_eq_any_tails]

/-- A metacharacter-free regex pattern matches at the front exactly the
subjects it is a case-insensitive prefix of. -/
theorem regexLitePrefix_no_meta :
    ∀ ts : List Char, (∀ c ∈ ts, c ∉ regexMetaChars) →
      ∀ cs, regexLitePrefix ts cs = isPrefixCi ts cs := by
  intro ts
  induction ts with
  | nil => intro _ cs; rfl
  | cons t ts ih =>
    intro h cs
    have ht : t ∉ regexMetaChars := h t (List.mem_cons_self t ts)
    have hdot : t ≠ '.' := fun hc => ht (by rw [hc]; decide)
    have hrest := ih fun c hc => h c (List.mem_cons_of_mem t hc)
    cases cs with
    | nil => rfl
    | cons c cs => simp [regexLitePrefix, isPrefixCi, hdot, hrest cs]

/-- For a term free of regex metacharacters, the case-insensitive `$regex`
match is exactly case-insensitive substring containment. -/
theorem mongoRegexMatchCi_eq_contains {term : String} (h : noRegexMeta term = true)
    (s : String) : mongoRegexMatchCi term s = strContainsCi term s := by
  have hts : ∀ c ∈ term.toList, c ∉ regexMetaChars := by
    intro c hc
    have hb := List.all_eq_true.mp h c hc
    simpa using hb
  rw [mongoRegexMatchCi, regexLiteSearch,
    listAnyCongr fun x _ => regexLitePrefix_no_meta term.toList hts x,
    strContainsCi, containsCi_eq_any_tails]

/-- An entry none of whose fields contain a literal `_` or `.`. -/
def wildcardEntry : ConfigEntry :=
  { config_key := "abc", config_value := "X", description := "d",
    status := "approved", maker_id := "m", checker_id := "",
    created_at := 1, updated_at := 1, approved_at := some 1 }

/-- C9 counterexample: the claim quantifies over every search term.  The
term `_` is passed into the LIKE pattern `%_%` unescaped, where `_` is a
single-character wildcard, so the MySQL-branch search predicate matches the
entry `abc/X/d` although `_` occurs in none of its fields; likewise the term
`.` reaches the document backend as the regex `.`, a single-character
wildcard, and matches the same entry although `.` occurs in none of its
fields. -/
theorem c9_counterexample :
    searchApprovedPred .mysql "_" wildcardEntry = true ∧
    searchApprovedPred .mongodb "." wildcardEntry = true ∧
    strContainsCi "_" wildcardEntry.config_key = false ∧
    strContainsCi "_" wildcardEntry.config_value = false ∧
    strContainsCi "_" wildcardEntry.description = false ∧
    strContainsCi "." wildcardEntry.config_key = false ∧
    strContainsCi "." wildcardEntry.config_value = false ∧
    strContainsCi "." wildcardEntry.description = false := by
  refine ⟨by decide, by decide, by decide, by decide, by decide, by decide,
    by decide, by decide⟩

/-- C9 (amended): for every backend and every search term free of pattern
metacharacters — the SQL LIKE wildcards `%` and `_` on the relational
backends, and on the document backend, where the raw term stands as a
`$regex` pattern, the regex metacharacters — the approved-only search
predicate matches an entry exactly when its status is approved and the term
occurs case-insensitively as a substring of its key, value or description.
Terms containing such characters are interpreted as patterns, not
literally. -/
theorem c9_search_matching (db : DBType) (term : String) (e : ConfigEntry)
    (hlike : noLikeWildcard term = true) (hregex : noRegexMeta term = true) :
    searchApprovedPred db term e
      = (e.status == "approved" &&
         (strContainsCi term e.config_key || strContainsCi term e.config_value ||
          strContainsCi term e.description)) := by
  cases db with
  | mysql =>
    simp only [searchApprovedPred]
    rw [strLike_wrap_eq_contains hlike, strLike_wrap_eq_contains hlike,
      strLike_wrap_eq_contains hlike]
  | postgresql =>
    simp only [searchApprovedPred]
    rw [strLike_wrap_eq_contains hlike, strLike_wrap_eq_contains hlike,
      strLike_wrap_eq_contains hlike]
  | mongodb =>
    simp only [searchApprovedPred]
    rw [mongoRegexMatchCi_eq_contains hregex, mongoRegexMatchCi_eq_contains hregex,
      mongoRegexMatchCi_eq_contains hregex]

/-- The spec's example entry. -/
def apiEntry : ConfigEntry :=
  { config_key := "Api_Url", config_value := "X", description := "prod",
    status := "approved", maker_id := "m", checker_id := "",
    created_at := 1, updated_at := 1, approved_at := some 1 }

/-- C9 witness: the terms `api` and `PROD` carry no LIKE wildcard and no
regex metacharacter, and both match the entry `Api_Url`/`X`/`prod`
case-insensitively, on the relational and the document backends. -/
theorem c9_witness :
    noLikeWildcard "api" = true ∧ noRegexMeta "api" = true ∧
    searchApprovedPred .mysql "api" apiEntry = true ∧
    searchApprovedPred .mongodb "api" apiEntry = true ∧
    searchApprovedPred .mysql "PROD" apiEntry = true :=
  ⟨by decide, by decide,
   by rw [c9_search_matching .mysql "api" apiEntry (by decide) (by decide)]; decide,
   by rw [c9_search_matching .mongodb "api" apiEntry (by decide) (by decide)]; decide,
   by rw [c9_search_matching .mysql "PROD" apiEntry (by decide) (by decide)]; decide⟩

/-! ## Claim C10 — offset is applied only under a positive limit -/

/-- With a non-positive limit the relational queries carry neither LIMIT nor
OFFSET. -/
theorem sqlPaginate_nonpos {limit : Int} (hlim : limit ≤ 0) (offset : Int)
    (l : List α) : sqlPaginate limit offset l = l := by
  simp [sqlPaginate, not_lt.mpr hlim]

/-- The document-backend find options apply skip independently of limit. -/
theorem mongoPaginate_nonpos {limit offset : Int} (hlim : limit ≤ 0)
    (hoff : 0 < offset) (l : List α) :
    mongoPaginate limit offset l = l.drop offset.toNat := by
  simp [mongoPaginate, not_lt.mpr hlim, hoff]

/-- An approved entry with key `a`. -/
def entryA : ConfigEntry :=
  { config_key := "a", config_value := "va", description := "da",
    status := "approved", maker_id := "m", checker_id := "",
    created_at := 1, updated_at := 1, approved_at := some 1 }

/-- An approved entry with key `b`. -/
def entryB : ConfigEntry :=
  { config_key := "b", config_value := "vb", description := "db",
    status := "approved", maker_id := "m", checker_id := "",
    created_at := 2, updated_at := 2, approved_at := some 2 }

/-- A store with two approved entries. -/
def twoEntryStore : Store :=
  { entries := [entryA, entryB], requests := [], uniqueKeyIndex := false }

/-- C10 counterexample: the claim says a positive offset is silently ignored
whenever limit ≤ 0, on every backend.  On the document backend the `skip`
option is set whenever offset > 0 (part_001 lines 2123-2125), so read_all
with limit = 0 and offset = 1 drops the first entry, while the relational
branch returns everything. -/
theorem c10_counterexample :
    readAllApprovedConfigs .mongodb twoEntryStore 0 1 = [entryB] ∧
    readAllApprovedConfigs .mysql twoEntryStore 0 1 = [entryA, entryB] := by
  exact ⟨rfl, rfl⟩

/-- With a non-positive limit the document-backend find still applies a
positive skip: the result is the unpaginated list with the first `offset`
elements dropped. -/
theorem mongoPaginate_drop {limit offset : Int} (hlim : limit ≤ 0)
    (hoff : 0 < offset) (l : List α) :
    mongoPaginate limit offset l = (mongoPaginate limit 0 l).drop offset.toNat := by
  rw [mongoPaginate_nonpos hlim hoff]
  simp [mongoPaginate, not_lt.mpr hlim]

/-- C10 (amended): with limit ≤ 0, the relational backends ignore a positive
offset in every paginated list operation — read_all, search and filter in
both the approved-only and the admin variant, and the pending / my-requests
/ history listings — so results start from the first entry; the document
backend instead applies skip whenever offset > 0, regardless of limit, in
each of those operations. -/
theorem c10_offset_only_with_limit (s : Store) (makerID term : String)
    (criteria : List (String × String)) (lim off : Int) (hlim : lim ≤ 0) :
    (∀ db, db ≠ DBType.mongodb →
      readAllApprovedConfigs db s lim off = readAllApprovedConfigs db s lim 0 ∧
      searchApprovedConfigs db s term lim off = searchApprovedConfigs db s term lim 0 ∧
      readAllConfigs db s lim off = readAllConfigs db s lim 0 ∧
      searchConfigs db s term lim off = searchConfigs db s term lim 0 ∧
      getPendingApprovals db s lim off = getPendingApprovals db s lim 0 ∧
      getMyRequests db s makerID lim off = getMyRequests db s makerID lim 0 ∧
      getApprovalHistory db s lim off = getApprovalHistory db s lim 0) ∧
    (filterApprovedConfigsMySql s criteria lim off
      = filterApprovedConfigsMySql s criteria lim 0) ∧
    (filterConfigsSql s criteria lim off = filterConfigsSql s criteria lim 0) ∧
    (0 < off →
      readAllApprovedConfigs .mongodb s lim off
        = (readAllApprovedConfigs .mongodb s lim 0).drop off.toNat ∧
      searchApprovedConfigs .mongodb s term lim off
        = (searchApprovedConfigs .mongodb s term lim 0).drop off.toNat ∧
      filterApprovedConfigsMongo s criteria lim off
        = (filterApprovedConfigsMongo s criteria lim 0).drop off.toNat ∧
      readAllConfigs .mongodb s lim off
        = (readAllConfigs .mongodb s lim 0).drop off.toNat ∧
      searchConfigs .mongodb s term lim off
        = (searchConfigs .mongodb s term lim 0).drop off.toNat ∧
      filterConfigsMongo s criteria lim off
        = (filterConfigsMongo s criteria lim 0).drop off.toNat ∧
      getPendingApprovals .mongodb s lim off
        = (getPendingApprovals .mongodb s lim 0).drop off.toNat ∧
      getMyRequests .mongodb s makerID lim off
        = (getMyRequests .mongodb s makerID lim 0).drop off.toNat ∧
      getApprovalHistory .mongodb s lim off
        = (getApprovalHistory .mongodb s lim 0).drop off.toNat) := by
  refine ⟨?_, ?_, ?_, ?_⟩
  · intro db hdb
    cases db with
    | mongodb => exact absurd rfl hdb
    | mysql =>
      exact ⟨by simp [readAllApprovedConfigs, sqlPaginate_nonpos hlim],
        by simp [searchApprovedConfigs, sqlPaginate_nonpos hlim],
        by simp [readAllConfigs, sqlPaginate_nonpos hlim],
        by simp [searchConfigs, sqlPaginate_nonpos hlim],
        by simp [getPendingApprovals, sqlPaginate_nonpos hlim],
        by simp [getMyRequests, sqlPaginate_nonpos hlim],
        by simp [getApprovalHistory, sqlPaginate_nonpos hlim]⟩
    | postgresql =>
      exact ⟨by simp [readAllApprovedConfigs, sqlPaginate_nonpos hlim],
        by simp [searchApprovedConfigs, sqlPaginate_nonpos hlim],
        by simp [readAllConfigs, sqlPaginate_nonpos hlim],
        by simp [searchConfigs, sqlPaginate_nonpos hlim],
        by simp [getPendingApprovals, sqlPaginate_nonpos hlim],
        by simp [getMyRequests, sqlPaginate_nonpos hlim],
        by simp [getApprovalHistory, sqlPaginate_nonpos hlim]⟩
  · simp [filterApprovedConfigsMySql, sqlPaginate_nonpos hlim]
  · simp [filterConfigsSql, sqlPaginate_nonpos hlim]
  · intro hoff
    exact ⟨mongoPaginate_drop hlim hoff _, mongoPaginate_drop hlim hoff _,
      mongoPaginate_drop hlim hoff _, mongoPaginate_drop hlim hoff _,
      mongoPaginate_drop hlim hoff _, mongoPaginate_drop hlim hoff _,
      mongoPaginate_drop hlim hoff _, mongoPaginate_drop hlim hoff _,
      mongoPaginate_drop hlim hoff _⟩

/-- C10 witness: with limit = 0 and offset = 1 on the two-entry store, the
relational read_all (approved-only and admin) ignores the offset while the
document backend drops the first entry, in both variants. -/
theorem c10_witness :
    ((0 : Int) ≤ 0) ∧
    readAllApprovedConfigs .mysql twoEntryStore 0 1
      = readAllApprovedConfigs .mysql twoEntryStore 0 0 ∧
    readAllConfigs .mysql twoEntryStore 0 1 = readAllConfigs .mysql twoEntryStore 0 0 ∧
    readAllApprovedConfigs .mongodb twoEntryStore 0 1
      = (readAllApprovedConfigs .mongodb twoEntryStore 0 0).drop 1 ∧
    readAllConfigs .mongodb twoEntryStore 0 1
      = (readAllConfigs .mongodb twoEntryStore 0 0).drop 1 :=
  ⟨by decide,
   ((c10_offset_only_with_limit twoEntryStore "m" "t" [] 0 1 (by decide)).1 .mysql
     (by decide)).1,
   ((c10_offset_only_with_limit twoEntryStore "m" "t" [] 0 1 (by decide)).1 .mysql
     (by decide)).2.2.1,
   by
    have h := (c10_offset_only_with_limit twoEntryStore "m" "t" [] 0 1
      (by decide)).2.2.2 (by decide)
    simpa using h.1,
   by
    have h := (c10_offset_only_with_limit twoEntryStore "m" "t" [] 0 1
      (by decide)).2.2.2 (by decide)
    simpa using h.2.2.2.1⟩

end DbConnectors
